import Mathlib

/-!
# StreetMap elevation import (`Source/StreetMapImporting/GISUtils/Elevation.cpp`)

A shallow embedding of the elevation tile pipeline of the StreetMap plugin:

* `FCachedElevationFile` : one tile job (cache lookup, HTTP download, time-out, PNG unpacking);
* `FElevationModel::LoadElevationData` : tile planning and the polling download loop;
* `FElevationModel::ReprojectData` and `BuildLandscape`.

Conventions of the embedding.

* `uint8` is `Fin 256`; `uint32` values are naturals reduced modulo `2^32`; `int32` values are
  integers, with the range made explicit where an overflow can occur.
* `float` values are rationals; every `float` operation is followed by `roundF32`, the rounding
  to the nearest binary32 number.
* The engine services the file calls (file system, PNG image wrapper, HTTP module, clock,
  user-cancel flag, projection and tiling scheme) are inputs of the definitions: one `Env` value
  holds what a single `Tick` observes.
* A `TSharedPtr` is an index into a heap of jobs; the `TSharedPtr<IHttpRequest>` member is an
  `Option`, and dereferencing an empty one is the fault `Fault.nullHandle`.
-/

namespace StreetMap

/-! ## Machine integers and time -/

/-- Conversion to `uint32`: the value modulo `2^32`. -/
def toUInt32 (v : Int) : Nat := (v % 4294967296).toNat

/-- Conversion to `uint16`: the value modulo `2^16`. -/
def toUInt16 (v : Int) : Nat := (v % 65536).toNat

/-- Reading of a `uint32` as an `int32`, which is what `%d` and `FString::AppendInt(int32)`
receive when they are handed a `uint32`. -/
def toInt32 (v : Nat) : Int :=
  if v % 4294967296 < 2147483648 then ((v % 4294967296 : Nat) : Int)
  else ((v % 4294967296 : Nat) : Int) - 4294967296

/-- The range of `int32`. -/
def IsInt32 (v : Int) : Prop := -2147483648 ≤ v ∧ v ≤ 2147483647

instance (v : Int) : Decidable (IsInt32 v) := by
  unfold IsInt32; infer_instance

/-- Engine constant `ETimespan::TicksPerSecond`: `FDateTime` and `FTimespan` count ticks of
100 nanoseconds. -/
def TicksPerSecond : Int := 10000000

/-- Engine accessor `FTimespan::GetSeconds`: the seconds component of a time span,
`(int32)((Ticks / TicksPerSecond) % 60)` with the truncating division of C++. -/
def GetSeconds (Ticks : Int) : Int := Int.tmod (Int.tdiv Ticks TicksPerSecond) 60

/-! ## binary32 arithmetic -/

/-- Rounding to the nearest integer, ties to the even one. -/
def roundHalfEven (x : ℚ) : ℤ :=
  let f := ⌊x⌋
  let r := x - f
  if r < 1 / 2 then f
  else if 1 / 2 < r then f + 1
  else if f % 2 = 0 then f else f + 1

/-- Rounding of a rational to the nearest binary32 number (24 significant bits, exponent of
the leading bit at least `-126`, ties to even). Overflow to infinity is not represented; the
values rounded in this file are below `2^17` in magnitude. -/
def roundF32 (q : ℚ) : ℚ :=
  if q = 0 then 0
  else
    let e : ℤ := max (Int.log 2 |q|) (-126)
    let ulp : ℚ := (2 : ℚ) ^ (e - 23)
    (roundHalfEven (q / ulp) : ℚ) * ulp

/-! ## PNG unpacking -/

/-- Contents of a `TArray<uint8>`. -/
abbrev Bytes := List (Fin 256)

/-- Engine enumeration `ERGBFormat`. -/
inductive ERGBFormat where
  | Invalid
  | RGBA
  | BGRA
  | Gray
  deriving DecidableEq, Repr

/-- What the engine PNG image wrapper reports once `SetCompressed` has accepted a payload.
`GetRaw Format BitDepth` is the raw pixel buffer in the requested layout, or `none` when the
wrapper returns `false`. -/
structure ImageWrapper where
  BitDepth : Int
  Format : ERGBFormat
  Width : Int
  Height : Int
  GetRaw : ERGBFormat → Int → Option Bytes

/-- The constant `ExpectedElevationTileSize`. -/
def ExpectedElevationTileSize : Int := 256

/-- The expression `(Data[0] * 256.0f + Data[1] + Data[2] / 256.0f) - 32768.0f`, every
operation rounded to binary32. -/
def ElevationValue (d0 d1 d2 : Fin 256) : ℚ :=
  roundF32 (roundF32 (roundF32 (roundF32 ((d0.val : ℚ) * 256) + (d1.val : ℚ))
    + roundF32 ((d2.val : ℚ) / 256)) - 32768)

/-- The `while (ElevationData < ElevationDataEnd)` loop of `UnpackElevation`: `n` samples are
written, `Data` advances by four bytes per sample. A read past the end of the raw buffer
(which the image wrapper never causes for a 4-channel 8-bit image) yields 0 here. -/
def unpackLoop : Nat → Bytes → List ℚ
  | 0, _ => []
  | n + 1, Data =>
    ElevationValue (Data.getD 0 0) (Data.getD 1 0) (Data.getD 2 0) :: unpackLoop n (Data.drop 4)

/-- `FCachedElevationFile::UnpackElevation`. The first argument is the engine PNG wrapper
(`none`: the wrapper is invalid or `SetCompressed` fails), the second the `Elevation` member
before the call. Returns the `bool` result and the `Elevation` member after the call. -/
def UnpackElevation (SetCompressed : Bytes → Option ImageWrapper) (Elevation : List ℚ)
    (RawData : Bytes) : Bool × List ℚ :=
  match SetCompressed RawData with
  | none => (false, Elevation)
  | some Png =>
    if Png.Width ≠ ExpectedElevationTileSize ∨ Png.Height ≠ ExpectedElevationTileSize then
      (false, Elevation)
    else if (Png.Format ≠ ERGBFormat.RGBA ∧ Png.Format ≠ ERGBFormat.BGRA) ∨ Png.BitDepth > 8 then
      (false, Elevation)
    else
      let BitDepth : Int := if Png.BitDepth ≤ 8 then 8 else Png.BitDepth
      match Png.GetRaw Png.Format BitDepth with
      | some RawPNG => (true, unpackLoop (Png.Width * Png.Height).toNat RawPNG)
      | none => (true, Elevation)

/-! ## Cache paths and URLs -/

/-- `GetCachedFilePath(X, Y, Z)`; `CacheDir` is the result of `GetElevationCacheDir()`. -/
def GetCachedFilePath (CacheDir : String) (X Y Z : Nat) : String :=
  CacheDir ++ "elevation_" ++ toString (toInt32 Z) ++ "_" ++ toString (toInt32 X) ++ "_"
    ++ toString (toInt32 Y) ++ ".png"

/-- `FString::Printf(*URLTemplate, Z, X, Y)` for the template
`http://s3.amazonaws.com/elevation-tiles-prod/terrarium/%d/%d/%d.png`. -/
def TileURL (X Y Z : Nat) : String :=
  "http://s3.amazonaws.com/elevation-tiles-prod/terrarium/" ++ toString (toInt32 Z) ++ "/"
    ++ toString (toInt32 X) ++ "/" ++ toString (toInt32 Y) ++ ".png"

/-! ## The tile job `FCachedElevationFile` -/

/-- Engine enumeration `EHttpRequestStatus`. -/
inductive EHttpRequestStatus where
  | NotStarted
  | Processing
  | Failed
  | Failed_ConnectionError
  | Succeeded
  deriving DecidableEq, Repr

/-- The request object behind `TSharedPtr<IHttpRequest>`: its verb and URL, and how often
`ProcessRequest`, `CancelRequest` and `Tick` were called on it. -/
structure FHttpRequest where
  Verb : String
  URL : String
  ProcessRequestCalls : Nat
  CancelRequestCalls : Nat
  TickCalls : Nat
  deriving DecidableEq, Repr

/-- `FHttpModule::Get().CreateRequest()`. -/
def FHttpRequest.create : FHttpRequest :=
  { Verb := "", URL := "", ProcessRequestCalls := 0, CancelRequestCalls := 0, TickCalls := 0 }

/-- `IHttpRequest::CancelRequest` on the request object. -/
def FHttpRequest.cancel (r : FHttpRequest) : FHttpRequest :=
  { r with CancelRequestCalls := r.CancelRequestCalls + 1 }

/-- The members of `FCachedElevationFile`. `StartTime` and `TimeSpan` are in ticks;
`HttpRequest = none` is the empty shared pointer. -/
structure FCachedElevationFile where
  WasInitialized : Bool
  WasDownloadASuccess : Bool
  Failed : Bool
  StartTime : Int
  TimeSpan : Int
  HttpRequest : Option FHttpRequest
  Elevation : List ℚ
  X : Nat
  Y : Nat
  Z : Nat
  deriving DecidableEq

/-- The constructor `FCachedElevationFile(X, Y, Z)`; `UtcNow` is the clock reading taken for
`StartTime`. `TimeSpan` is a default `FTimespan` (zero ticks), `HttpRequest` an empty pointer,
`Elevation` an empty array. -/
def FCachedElevationFile.create (UtcNow : Int) (X Y Z : Nat) : FCachedElevationFile :=
  { WasInitialized := false, WasDownloadASuccess := false, Failed := false,
    StartTime := UtcNow, TimeSpan := 0, HttpRequest := none, Elevation := [],
    X := X, Y := Y, Z := Z }

/-- `FCachedElevationFile::HasFinished`. -/
def FCachedElevationFile.HasFinished (j : FCachedElevationFile) : Bool :=
  j.WasDownloadASuccess || j.Failed

/-- `FCachedElevationFile::Succeeded`. -/
def FCachedElevationFile.Succeeded (j : FCachedElevationFile) : Bool :=
  j.WasDownloadASuccess

/-- A dereference that cannot be carried out. -/
inductive Fault where
  | nullHandle
  | danglingJob
  | int32Overflow
  | outOfFuel
  deriving DecidableEq, Repr

/-- The file system as `FFileHelper::LoadFileToArray` sees it: the bytes of a readable file,
`none` for a missing or unreadable one. -/
abbrev Files := String → Option Bytes

/-- `FFileHelper::SaveArrayToFile` when it succeeds. -/
def writeFile (fs : Files) (Path : String) (Content : Bytes) : Files :=
  fun p => if p = Path then some Content else fs p

/-- Everything outside the job that one call of `Tick` can observe. -/
structure Env where
  /-- The cache directory path, `GetElevationCacheDir()`. -/
  CacheDir : String
  /-- The file system at this poll. -/
  Cache : Files
  /-- Whether `SaveArrayToFile` succeeds. -/
  SaveSucceeds : Bool
  /-- The PNG image wrapper. -/
  SetCompressed : Bytes → Option ImageWrapper
  /-- The result of `HttpRequest->ProcessRequest()`. -/
  ProcessRequest : Bool
  /-- `FDateTime::UtcNow()` in ticks. -/
  UtcNow : Int
  /-- `HttpRequest->GetStatus()`. -/
  Status : EHttpRequestStatus
  /-- `HttpRequest->GetResponse()`: the content of a valid response, `none` for an invalid
  response pointer. -/
  Response : Option Bytes

/-- `FCachedElevationFile::CancelRequest`: `Failed = true`, then the request is cancelled
through the handle. -/
def FCachedElevationFile.CancelRequest (j : FCachedElevationFile) :
    Except Fault FCachedElevationFile :=
  match j.HttpRequest with
  | none => Except.error Fault.nullHandle
  | some h => Except.ok { j with Failed := true, HttpRequest := some h.cancel }

/-- `FCachedElevationFile::DownloadFile`. -/
def FCachedElevationFile.DownloadFile (env : Env) (j : FCachedElevationFile) :
    FCachedElevationFile :=
  let URL := TileURL j.X j.Y j.Z
  let Request : FHttpRequest :=
    { FHttpRequest.create with Verb := "GET", URL := URL, ProcessRequestCalls := 1 }
  if !env.ProcessRequest then
    { j with HttpRequest := some Request, Failed := true }
  else
    { j with HttpRequest := some Request }

/-- `FCachedElevationFile::Initialize`. -/
def FCachedElevationFile.Initialize (env : Env) (j : FCachedElevationFile) :
    FCachedElevationFile :=
  let j1 := { j with WasInitialized := true }
  match env.Cache (GetCachedFilePath env.CacheDir j1.X j1.Y j1.Z) with
  | some RawData =>
    let r := UnpackElevation env.SetCompressed j1.Elevation RawData
    if r.1 then { j1 with Elevation := r.2, WasDownloadASuccess := true }
    else FCachedElevationFile.DownloadFile env { j1 with Elevation := r.2 }
  | none => FCachedElevationFile.DownloadFile env j1

/-- `FCachedElevationFile::OnDownloadSucceeded(Response)`; also returns the file system after
the call. -/
def FCachedElevationFile.OnDownloadSucceeded (env : Env) (j : FCachedElevationFile) :
    FCachedElevationFile × Files :=
  match env.Response with
  | some Content =>
    let r := UnpackElevation env.SetCompressed j.Elevation Content
    if !r.1 then ({ j with Elevation := r.2, Failed := true }, env.Cache)
    else
      ({ j with Elevation := r.2, WasDownloadASuccess := true },
        if env.SaveSucceeds then
          writeFile env.Cache (GetCachedFilePath env.CacheDir j.X j.Y j.Z) Content
        else env.Cache)
  | none => ({ j with WasDownloadASuccess := true }, env.Cache)

/-- `FCachedElevationFile::Tick`; also returns the file system after the call. -/
def FCachedElevationFile.Tick (env : Env) (j : FCachedElevationFile) :
    Except Fault (FCachedElevationFile × Files) :=
  let j1 := if !j.WasInitialized then FCachedElevationFile.Initialize env j else j
  if j1.WasDownloadASuccess || j1.Failed then Except.ok (j1, env.Cache)
  else if GetSeconds j1.TimeSpan > 10 then
    match j1.HttpRequest with
    | none => Except.error Fault.nullHandle
    | some h => Except.ok ({ j1 with Failed := true, HttpRequest := some h.cancel }, env.Cache)
  else
    let j2 := { j1 with TimeSpan := env.UtcNow - j1.StartTime }
    match j2.HttpRequest with
    | none => Except.error Fault.nullHandle
    | some h =>
      if env.Status = EHttpRequestStatus.Failed
          ∨ env.Status = EHttpRequestStatus.Failed_ConnectionError then
        Except.ok ({ j2 with Failed := true, HttpRequest := some h.cancel }, env.Cache)
      else if env.Status = EHttpRequestStatus.Succeeded then
        Except.ok (FCachedElevationFile.OnDownloadSucceeded env j2)
      else
        Except.ok ({ j2 with HttpRequest := some { h with TickCalls := h.TickCalls + 1 } },
          env.Cache)

/-! ## `FElevationModel::LoadElevationData` -/

/-- Engine type `FIntPoint` (two `int32`). -/
structure FIntPoint where
  X : Int
  Y : Int
  deriving DecidableEq, Repr

/-- The projection and tiling services `LoadElevationData` and `ReprojectData` call; their
sources (`SpatialReferenceSystem.h`, `TiledMap.h`) are inputs here.
`ToEPSG3857 x y` is `SRS.ToEPSG3857(FVector2D(x, y), OutX, OutY)`: `some (OutX, OutY)` when it
returns `true`. `NumLevels` and `GetTileXY` are those of `FTiledMap::MapzenElevation()`. -/
structure GeoEnv where
  ToEPSG3857 : Int → Int → Option (ℚ × ℚ)
  NumLevels : Nat
  GetTileXY : ℚ → ℚ → Nat → FIntPoint

/-- The values `Y = a; Y <= b; Y++` runs through, for `b` below the largest `int32`. -/
def int32Range (a b : Int) : List Int :=
  (List.range (b + 1 - a).toNat).map (fun (k : Nat) => a + (k : Int))

/-- The tile indices `(X, Y)` in the order in which the two nested `for` loops of step 1
visit them. -/
def PlanCoords (SouthWestTileXY NorthEastTileXY : FIntPoint) : List (Int × Int) :=
  (int32Range SouthWestTileXY.Y NorthEastTileXY.Y).flatMap (fun Y =>
    (int32Range SouthWestTileXY.X NorthEastTileXY.X).map (fun X => (X, Y)))

/-- The jobs step 1 of `LoadElevationData` adds to `FilesToDownload`, in order;
`CtorTime k` is the clock reading in the constructor of the `k`-th job. -/
def PlanTiles (CtorTime : Nat → Int) (SouthWestTileXY NorthEastTileXY : FIntPoint)
    (LevelIndex : Nat) : List FCachedElevationFile :=
  (PlanCoords SouthWestTileXY NorthEastTileXY).enum.map (fun kc =>
    FCachedElevationFile.create (CtorTime kc.1) (toUInt32 kc.2.1) (toUInt32 kc.2.2) LevelIndex)

/-- The corner computation of step 1: `none` when one of the two projections fails (the
function then returns `false`), otherwise `LevelIndex` and the two corner tiles. -/
def TileCorners (geo : GeoEnv) (RadiusInMeters : Int) : Option (Nat × FIntPoint × FIntPoint) :=
  match geo.ToEPSG3857 (-RadiusInMeters) (-RadiusInMeters),
      geo.ToEPSG3857 RadiusInMeters RadiusInMeters with
  | some WS, some EN =>
    let LevelIndex := toUInt32 ((geo.NumLevels : Int) - 1)
    some (LevelIndex, geo.GetTileXY WS.1 WS.2 LevelIndex, geo.GetTileXY EN.1 EN.2 LevelIndex)
  | _, _ => none

/-- The state of the download loop. Jobs live in `Heap`; a shared pointer to a job is its
index in `Heap`. `FilesToDownload` is the local array, `FilesDownloaded` the member of
`FElevationModel`. -/
structure LoaderState where
  Heap : List FCachedElevationFile
  FilesToDownload : List Nat
  FilesDownloaded : List Nat
  deriving DecidableEq

/-- The loop `for (auto FileToCancel : FilesToDownload) FileToCancel->CancelRequest();`
over the pointers `ptrs`. -/
def cancelLoop : List Nat → List FCachedElevationFile → Except Fault (List FCachedElevationFile)
  | [], Heap => Except.ok Heap
  | p :: rest, Heap =>
    match Heap[p]? with
    | none => Except.error Fault.danglingJob
    | some j =>
      match j.CancelRequest with
      | Except.error f => Except.error f
      | Except.ok j1 => cancelLoop rest (Heap.set p j1)

/-- The loop `for (auto FileToDownload : FilesToDownload)` of step 2, over the pointers that
are still to be visited in this pass; `env p` is what the `Tick` of job `p` observes. The loop
is left by `break` after the first job that `HasFinished()`. -/
def pollPass (env : Nat → Env) : List Nat → LoaderState → Except Fault LoaderState
  | [], s => Except.ok s
  | p :: rest, s =>
    match s.Heap[p]? with
    | none => Except.error Fault.danglingJob
    | some j =>
      match j.Tick (env p) with
      | Except.error f => Except.error f
      | Except.ok r =>
        let Heap1 := s.Heap.set p r.1
        if r.1.HasFinished then
          let Remaining := s.FilesToDownload.filter (fun q => q ≠ p)
          if r.1.Succeeded then
            Except.ok { Heap := Heap1, FilesToDownload := Remaining,
                        FilesDownloaded := s.FilesDownloaded ++ [p] }
          else
            match cancelLoop Remaining Heap1 with
            | Except.error f => Except.error f
            | Except.ok Heap2 =>
              Except.ok { Heap := Heap2, FilesToDownload := [],
                          FilesDownloaded := s.FilesDownloaded }
        else
          pollPass env rest { s with Heap := Heap1 }

/-- The loop `while (FilesToDownload.Num())` of step 2. `UserCancel i` is
`GWarn->ReceivedUserCancel()` in iteration `i`, `env i p` what job `p` observes when it is
ticked in iteration `i`; `fuel` bounds the number of iterations. -/
def downloadLoop (UserCancel : Nat → Bool) (env : Nat → Nat → Env) :
    Nat → Nat → LoaderState → Except Fault LoaderState
  | 0, _, s => if s.FilesToDownload = [] then Except.ok s else Except.error Fault.outOfFuel
  | fuel + 1, i, s =>
    if s.FilesToDownload = [] then Except.ok s
    else if UserCancel i then Except.ok s
    else
      match pollPass (env i) s.FilesToDownload s with
      | Except.error f => Except.error f
      | Except.ok s1 => downloadLoop UserCancel env fuel (i + 1) s1

/-- Step 2 of `LoadElevationData` and its final test, from loop iteration `i` on:
`NumFilesToDownload` was read before the loop. -/
def downloadAndCheck (UserCancel : Nat → Bool) (env : Nat → Nat → Env) (fuel i : Nat)
    (NumFilesToDownload : Nat) (s : LoaderState) : Except Fault (Bool × LoaderState) :=
  match downloadLoop UserCancel env fuel i s with
  | Except.error f => Except.error f
  | Except.ok s1 =>
    if s1.FilesDownloaded.length < NumFilesToDownload then Except.ok (false, s1)
    else Except.ok (true, s1)

/-- The object `FElevationModel`: its member `FilesDownloaded` and the jobs it points to. -/
structure FElevationModel where
  Heap : List FCachedElevationFile
  FilesDownloaded : List Nat
  deriving DecidableEq

/-- A newly constructed `FElevationModel`. -/
def FElevationModel.create : FElevationModel := { Heap := [], FilesDownloaded := [] }

/-- The loop state after step 1 has allocated the jobs `Planned`. -/
def FElevationModel.afterPlanning (m : FElevationModel) (Planned : List FCachedElevationFile) :
    LoaderState :=
  { Heap := m.Heap ++ Planned,
    FilesToDownload := List.range' m.Heap.length Planned.length,
    FilesDownloaded := m.FilesDownloaded }

/-- `FElevationModel::LoadElevationData`. Returns the `bool` result and the loop state at the
return (the slow-task progress reports and the 0.1 s sleep are not represented). -/
def FElevationModel.LoadElevationData (m : FElevationModel) (geo : GeoEnv) (CtorTime : Nat → Int)
    (UserCancel : Nat → Bool) (env : Nat → Nat → Env) (fuel : Nat) (RadiusInMeters : Int) :
    Except Fault (Bool × LoaderState) :=
  match TileCorners geo RadiusInMeters with
  | none => Except.ok (false, m.afterPlanning [])
  | some c =>
    let Planned := PlanTiles CtorTime c.2.1 c.2.2 c.1
    downloadAndCheck UserCancel env fuel 0 Planned.length (m.afterPlanning Planned)

/-! ## `FElevationModel::ReprojectData` and `BuildLandscape` -/

/-- The constant `ZeroElevationOffset`. -/
def ZeroElevationOffset : Int := 32768

/-- The expression `(uint16)(ZeroElevationOffset + ElevationOffset)`: the sum is formed in
`int`, the cast keeps it modulo `2^16` (a sum that wrapped modulo `2^32` first would have the
same residue). -/
def EncodeElevation (ElevationOffset : Int) : Nat :=
  toUInt16 (ZeroElevationOffset + ElevationOffset)

/-- `FElevationModel::ReprojectData`: the contents of `OutElevationData` after the call. A
cell is `some v` once the loop has written `v`, and `none` while it is as
`SetNumUninitialized` left it. The sizes are `int32`; a product outside `int32` is the fault
`Fault.int32Overflow`. The body of the `if (SRS.ToEPSG3857(...))` is empty in the source, and
the member `FilesDownloaded` is not read. -/
def FElevationModel.ReprojectData (_m : FElevationModel) (geo : GeoEnv)
    (RadiusInMeters : Int) : Except Fault (List (Option Nat)) :=
  let SizeX := RadiusInMeters * 2
  let SizeY := RadiusInMeters * 2
  if ¬ IsInt32 SizeX then Except.error Fault.int32Overflow
  else if ¬ IsInt32 (SizeX * SizeY) then Except.error Fault.int32Overflow
  else
    let Written : List Nat :=
      (List.range SizeY.toNat).flatMap (fun (y : Nat) =>
        (List.range SizeX.toNat).map (fun (x : Nat) =>
          let ElevationOffset : Int := 0
          let ElevationOffset : Int :=
            if (geo.ToEPSG3857 (x : Int) (y : Int)).isSome then ElevationOffset
            else ElevationOffset
          EncodeElevation ElevationOffset))
    Except.ok (Written.map some ++ List.replicate ((SizeX * SizeY).toNat - Written.length) none)

/-- What a call of `BuildLandscape` did: whether `ReprojectData` was called, and the
`ElevationData` handed to `CreateLandscape` (`Except.ok none` for the `nullptr` return). -/
structure BuildResult where
  ReprojectDataCalled : Bool
  ElevationData : Except Fault (Option (List (Option Nat)))

/-- `BuildLandscape`, up to the call of `CreateLandscape`. -/
def BuildLandscape (geo : GeoEnv) (CtorTime : Nat → Int) (UserCancel : Nat → Bool)
    (env : Nat → Nat → Env) (fuel : Nat) (RadiusInMeters : Int) : BuildResult :=
  match FElevationModel.create.LoadElevationData geo CtorTime UserCancel env fuel
      RadiusInMeters with
  | Except.error f => { ReprojectDataCalled := false, ElevationData := Except.error f }
  | Except.ok r =>
    if !r.1 then { ReprojectDataCalled := false, ElevationData := Except.ok none }
    else
      let ElevationModel : FElevationModel :=
        { Heap := r.2.Heap, FilesDownloaded := r.2.FilesDownloaded }
      match ElevationModel.ReprojectData geo RadiusInMeters with
      | Except.error f => { ReprojectDataCalled := true, ElevationData := Except.error f }
      | Except.ok Data => { ReprojectDataCalled := true, ElevationData := Except.ok (some Data) }

/-! ## Notions used in the statements -/

/-- The tile coordinate `(X, Y, Z)` of a job. -/
def FCachedElevationFile.Coord (j : FCachedElevationFile) : Nat × Nat × Nat := (j.X, j.Y, j.Z)

/-- The invariant of the download loop over a heap of `n` jobs: the downloaded pointers are
pairwise distinct, none of them is still pending and each points to a job that
`Succeeded()`; every pending pointer points to a job that has not finished. -/
def LoaderInv (n : Nat) (s : LoaderState) : Prop :=
  s.Heap.length = n ∧ s.FilesDownloaded.Nodup ∧
  (∀ p ∈ s.FilesDownloaded, p ∉ s.FilesToDownload ∧
      ∃ j, s.Heap[p]? = some j ∧ j.Succeeded = true) ∧
  (∀ p ∈ s.FilesToDownload, ∃ j, s.Heap[p]? = some j ∧ j.HasFinished = false)

/-! ## Sample inputs -/

/-- A tiling in which the south-west corner falls into tile `(0, 0)` and the north-east
corner into tile `(1, 0)`; every projection succeeds. -/
def sampleGeo : GeoEnv :=
  { ToEPSG3857 := fun x y => some ((x : ℚ), (y : ℚ)),
    NumLevels := 16,
    GetTileXY := fun X _ _ => { X := if X.num < 0 then 0 else 1, Y := 0 } }

/-- An image wrapper reporting a 256x256 RGBA image of bit depth 8 whose raw data cannot be
obtained. -/
def sampleImage : ImageWrapper :=
  { BitDepth := 8, Format := ERGBFormat.RGBA, Width := 256, Height := 256,
    GetRaw := fun _ _ => none }

/-- A poll at which every tile is in the cache and unpacks. -/
def cachedEnv : Env :=
  { CacheDir := "", Cache := fun _ => some [], SaveSucceeds := true,
    SetCompressed := fun _ => some sampleImage, ProcessRequest := true, UtcNow := 0,
    Status := EHttpRequestStatus.Processing, Response := none }

/-- The job a cache hit under `cachedEnv` leaves behind for tile `(X, 0, 15)`. -/
def cachedJob (X : Nat) : FCachedElevationFile :=
  { WasInitialized := true, WasDownloadASuccess := true, Failed := false, StartTime := 0,
    TimeSpan := 0, HttpRequest := none, Elevation := [], X := X, Y := 0, Z := 15 }

/-- A sequence of polls of one job; the `k`-th poll observes the `k`-th environment. -/
def TickMany : List Env → FCachedElevationFile → Except Fault FCachedElevationFile
  | [], j => Except.ok j
  | e :: es, j =>
    match j.Tick e with
    | Except.error f => Except.error f
    | Except.ok r => TickMany es r.1

/-- A poll at which the cache holds nothing and `ProcessRequest` fails. -/
def failEnv : Env :=
  { CacheDir := "", Cache := fun _ => none, SaveSucceeds := true,
    SetCompressed := fun _ => none, ProcessRequest := false, UtcNow := 0,
    Status := EHttpRequestStatus.Processing, Response := none }

/-- A poll at clock reading `UtcNow` at which the cache holds nothing, `ProcessRequest`
succeeds and the request is still being processed. -/
def fetchEnv (UtcNow : Int) : Env :=
  { CacheDir := "", Cache := fun _ => none, SaveSucceeds := true,
    SetCompressed := fun _ => none, ProcessRequest := true, UtcNow := UtcNow,
    Status := EHttpRequestStatus.Processing, Response := none }

/-- An image wrapper reporting a 128x128 RGBA image of bit depth 8. -/
def smallImage : ImageWrapper :=
  { BitDepth := 8, Format := ERGBFormat.RGBA, Width := 128, Height := 128,
    GetRaw := fun _ _ => none }

/-- An image wrapper reporting a 256x256 image of bit depth 8 in a format that is neither
`RGBA` nor `BGRA`. -/
def grayImage : ImageWrapper :=
  { BitDepth := 8, Format := ERGBFormat.Gray, Width := 256, Height := 256,
    GetRaw := fun _ _ => none }

/-- The loop state right after planning the two tiles `(0, 0, 15)` and `(1, 0, 15)` on a new
model. -/
def twoTileStart : LoaderState :=
  FElevationModel.create.afterPlanning
    (PlanTiles (fun _ => 0) { X := 0, Y := 0 } { X := 1, Y := 0 } 15)

/-- A job that is waiting for its download: initialised, not finished, request started;
`TimeSpan` is the elapsed time (ticks since `StartTime = 0`) its last poll recorded. -/
def fetchingJob (TimeSpan : Int) : FCachedElevationFile :=
  { WasInitialized := true, WasDownloadASuccess := false, Failed := false, StartTime := 0,
    TimeSpan := TimeSpan,
    HttpRequest := some { Verb := "GET", URL := TileURL 0 0 15, ProcessRequestCalls := 1,
                          CancelRequestCalls := 0, TickCalls := 1 },
    Elevation := [], X := 0, Y := 0, Z := 15 }

/-- The number a list of decimal digit characters stands for. -/
def decodeDigits : List Char → Nat
  | [] => 0
  | c :: cs => (c.toNat - 48) * 10 ^ cs.length + decodeDigits cs

/-- A poll at which the cache holds nothing and the request has completed with status
`Succeeded` but `GetResponse()` is an invalid pointer. -/
def lostResponseEnv : Env :=
  { CacheDir := "", Cache := fun _ => none, SaveSucceeds := true,
    SetCompressed := fun _ => none, ProcessRequest := true, UtcNow := 0,
    Status := EHttpRequestStatus.Succeeded, Response := none }

/-- What holds of every job reached from its constructor by polls: a job flagged as
downloaded has been initialised, and `Elevation` is either still empty or, in a job flagged
as downloaded, the 65536 samples unpacked from a raw pixel buffer. -/
def JobInv (j : FCachedElevationFile) : Prop :=
  (j.WasDownloadASuccess = true → j.WasInitialized = true) ∧
  (j.Elevation = [] ∨
    (j.WasDownloadASuccess = true ∧ ∃ RawPNG : Bytes, j.Elevation = unpackLoop 65536 RawPNG))

/-- A tiling whose tile rows are counted from the north: the south-west corner of a request
falls into tile `(0, 5)` and the north-east corner into tile `(3, 2)`; every projection
succeeds. -/
def northDownGeo : GeoEnv :=
  { ToEPSG3857 := fun x y => some ((x : ℚ), (y : ℚ)),
    NumLevels := 16,
    GetTileXY := fun X Y _ =>
      { X := if X.num < 0 then 0 else 3, Y := if Y.num < 0 then 5 else 2 } }

/-! # Properties

## Helper lemmas on the download loop -/

theorem cancelLoop_spec : ∀ (ptrs : List Nat) (H H1 : List FCachedElevationFile),
    cancelLoop ptrs H = Except.ok H1 →
    H1.length = H.length ∧ ∀ q, q ∉ ptrs → H1[q]? = H[q]? := by
  intro ptrs
  induction ptrs with
  | nil =>
    intro H H1 h
    simp [cancelLoop] at h
    subst h
    simp
  | cons p rest ih =>
    intro H H1 h
    simp only [cancelLoop] at h
    split at h
    · simp at h
    · rename_i j hj
      split at h
      · simp at h
      · rename_i j1 hj1
        obtain ⟨hl, hq⟩ := ih _ _ h
        refine ⟨by simpa using hl, ?_⟩
        intro q hq1
        simp only [List.mem_cons, not_or] at hq1
        rw [hq q hq1.2, List.getElem?_set_ne (Ne.symm hq1.1)]

theorem succeeded_not_unfinished (j : FCachedElevationFile) (h : j.HasFinished = false) :
    j.Succeeded = false := by
  simp [FCachedElevationFile.HasFinished, FCachedElevationFile.Succeeded] at *
  exact h.1

theorem pollPass_inv (n : Nat) (env : Nat → Env) : ∀ (l : List Nat) (s s1 : LoaderState),
    (∀ p ∈ l, p ∈ s.FilesToDownload) → LoaderInv n s → pollPass env l s = Except.ok s1 →
    LoaderInv n s1 := by
  intro l
  induction l with
  | nil =>
    intro s s1 _ hinv h
    simp [pollPass] at h
    subst h
    exact hinv
  | cons p rest ih =>
    intro s s1 hsub hinv h
    obtain ⟨hlen, hnd, hdl, hpd⟩ := hinv
    have hp : p ∈ s.FilesToDownload := hsub p (List.mem_cons_self _ _)
    have hpnd : p ∉ s.FilesDownloaded := fun hc => (hdl p hc).1 hp
    simp only [pollPass] at h
    split at h
    · simp at h
    · rename_i j hj
      have hplt : p < s.Heap.length := (List.getElem?_eq_some_iff.1 hj).1
      split at h
      · simp at h
      · rename_i r hr
        by_cases hfin : r.1.HasFinished = true
        · rw [if_pos hfin] at h
          by_cases hsuc : r.1.Succeeded = true
          · rw [if_pos hsuc] at h
            simp only [Except.ok.injEq] at h
            subst h
            refine ⟨by simpa using hlen, ?_, ?_, ?_⟩
            · simp only
              rw [List.nodup_append]
              refine ⟨hnd, List.nodup_singleton p, ?_⟩
              intro a ha hb
              simp only [List.mem_singleton] at hb
              subst hb
              exact hpnd ha
            · intro q hq
              simp only [List.mem_append, List.mem_singleton] at hq
              rcases hq with hq | hq
              · have hqp : q ≠ p := fun hc => hpnd (hc ▸ hq)
                obtain ⟨hq1, j1, hj1, hs1⟩ := hdl q hq
                refine ⟨?_, j1, ?_, hs1⟩
                · simp only [List.mem_filter, not_and]
                  intro hc
                  exact absurd hc hq1
                · simp only
                  rw [List.getElem?_set_ne (Ne.symm hqp)]
                  exact hj1
              · subst hq
                refine ⟨by simp [List.mem_filter], r.1, ?_, hsuc⟩
                simp only
                rw [List.getElem?_set_self hplt]
            · intro q hq
              simp only [List.mem_filter, decide_eq_true_eq] at hq
              obtain ⟨j1, hj1, hf1⟩ := hpd q hq.1
              refine ⟨j1, ?_, hf1⟩
              simp only
              rw [List.getElem?_set_ne (Ne.symm hq.2)]
              exact hj1
          · rw [if_neg hsuc] at h
            split at h
            · simp at h
            · rename_i H2 hH2
              simp only [Except.ok.injEq] at h
              subst h
              obtain ⟨hl2, hq2⟩ := cancelLoop_spec _ _ _ hH2
              refine ⟨by simpa [hl2] using hlen, hnd, ?_, by simp⟩
              intro q hq
              have hqp : q ≠ p := fun hc => hpnd (hc ▸ hq)
              obtain ⟨hq1, j1, hj1, hs1⟩ := hdl q hq
              refine ⟨by simp, j1, ?_, hs1⟩
              simp only
              rw [hq2 q (by simp only [List.mem_filter, not_and]; intro hc; exact absurd hc hq1),
                List.getElem?_set_ne (Ne.symm hqp)]
              exact hj1
        · rw [if_neg hfin] at h
          refine ih _ _ ?_ ?_ h
          · intro q hq
            exact hsub q (List.mem_cons_of_mem _ hq)
          · refine ⟨by simpa using hlen, hnd, ?_, ?_⟩
            · intro q hq
              have hqp : q ≠ p := fun hc => hpnd (hc ▸ hq)
              obtain ⟨hq1, j1, hj1, hs1⟩ := hdl q hq
              refine ⟨hq1, j1, ?_, hs1⟩
              simp only
              rw [List.getElem?_set_ne (Ne.symm hqp)]
              exact hj1
            · intro q hq
              by_cases hqp : q = p
              · subst hqp
                refine ⟨r.1, ?_, by simpa using hfin⟩
                simp only
                rw [List.getElem?_set_self hplt]
              · obtain ⟨j1, hj1, hf1⟩ := hpd q hq
                refine ⟨j1, ?_, hf1⟩
                simp only
                rw [List.getElem?_set_ne (Ne.symm hqp)]
                exact hj1

theorem downloadLoop_inv (n : Nat) (UserCancel : Nat → Bool) (env : Nat → Nat → Env) :
    ∀ (fuel i : Nat) (s s1 : LoaderState), LoaderInv n s →
    downloadLoop UserCancel env fuel i s = Except.ok s1 → LoaderInv n s1 := by
  intro fuel
  induction fuel with
  | zero =>
    intro i s s1 hinv h
    simp only [downloadLoop] at h
    split at h
    · simp only [Except.ok.injEq] at h
      exact h ▸ hinv
    · simp at h
  | succ fuel ih =>
    intro i s s1 hinv h
    simp only [downloadLoop] at h
    split at h
    · simp only [Except.ok.injEq] at h
      exact h ▸ hinv
    · split at h
      · simp only [Except.ok.injEq] at h
        exact h ▸ hinv
      · split at h
        · simp at h
        · rename_i s2 hs2
          exact ih _ _ _ (pollPass_inv n (env i) _ _ _ (fun _ hp => hp) hinv hs2) h

theorem LoaderInv.all_downloaded_iff {n : Nat} {s : LoaderState} (hinv : LoaderInv n s) :
    ¬ s.FilesDownloaded.length < n ↔
      ∀ p, p < n → p ∈ s.FilesDownloaded ∧ ∃ j, s.Heap[p]? = some j ∧ j.Succeeded = true := by
  obtain ⟨hlen, hnd, hdl, _⟩ := hinv
  constructor
  · intro hge p hp
    have hsub : s.FilesDownloaded.toFinset ⊆ Finset.range n := by
      intro q hq
      rw [List.mem_toFinset] at hq
      obtain ⟨_, j, hj, _⟩ := hdl q hq
      have := (List.getElem?_eq_some_iff.1 hj).1
      simp only [Finset.mem_range]
      omega
    have hcard : (Finset.range n).card ≤ s.FilesDownloaded.toFinset.card := by
      rw [List.toFinset_card_of_nodup hnd, Finset.card_range]
      omega
    have heq := Finset.eq_of_subset_of_card_le hsub hcard
    have hmem : p ∈ s.FilesDownloaded := by
      rw [← List.mem_toFinset, heq]
      simpa using hp
    exact ⟨hmem, (hdl p hmem).2⟩
  · intro hall
    have hsub : Finset.range n ⊆ s.FilesDownloaded.toFinset := by
      intro q hq
      rw [List.mem_toFinset]
      exact (hall q (by simpa using hq)).1
    have h1 := Finset.card_le_card hsub
    rw [Finset.card_range] at h1
    have h2 := List.toFinset_card_le s.FilesDownloaded
    omega

theorem LoaderInv.fresh (Planned : List FCachedElevationFile)
    (hfresh : ∀ j ∈ Planned, j.HasFinished = false) :
    LoaderInv Planned.length (FElevationModel.create.afterPlanning Planned) := by
  refine ⟨by simp [FElevationModel.afterPlanning, FElevationModel.create], by
    simp [FElevationModel.afterPlanning, FElevationModel.create], by
    simp [FElevationModel.afterPlanning, FElevationModel.create], ?_⟩
  intro p hp
  simp only [FElevationModel.afterPlanning, FElevationModel.create, List.length_nil,
    List.mem_range'_1, zero_add, List.nil_append] at hp ⊢
  refine ⟨Planned[p], ?_, hfresh _ (List.getElem_mem _)⟩
  rw [List.getElem?_eq_getElem hp.2]

theorem PlanTiles_fresh (CtorTime : Nat → Int) (SW NE : FIntPoint) (L : Nat) :
    ∀ j ∈ PlanTiles CtorTime SW NE L, j.HasFinished = false := by
  intro j hj
  simp only [PlanTiles, List.mem_map] at hj
  obtain ⟨kc, _, rfl⟩ := hj
  rfl

theorem DownloadFile_coord (env : Env) (j : FCachedElevationFile) :
    (j.DownloadFile env).Coord = j.Coord := by
  unfold FCachedElevationFile.DownloadFile FCachedElevationFile.Coord
  split <;> rfl

theorem Initialize_coord (env : Env) (j : FCachedElevationFile) :
    (j.Initialize env).Coord = j.Coord := by
  unfold FCachedElevationFile.Initialize
  dsimp only
  split
  · split
    · rfl
    · rw [DownloadFile_coord]; rfl
  · rw [DownloadFile_coord]; rfl

theorem OnDownloadSucceeded_coord (env : Env) (j : FCachedElevationFile) :
    (j.OnDownloadSucceeded env).1.Coord = j.Coord := by
  unfold FCachedElevationFile.OnDownloadSucceeded
  dsimp only
  split
  · split_ifs <;> rfl
  · rfl

theorem Tick_coord (env : Env) (j : FCachedElevationFile) (r : FCachedElevationFile × Files)
    (h : j.Tick env = Except.ok r) : r.1.Coord = j.Coord := by
  have h1 : (if !j.WasInitialized then FCachedElevationFile.Initialize env j else j).Coord
      = j.Coord := by
    split
    · exact Initialize_coord env j
    · rfl
  unfold FCachedElevationFile.Tick at h
  simp only [] at h
  generalize (if !j.WasInitialized then FCachedElevationFile.Initialize env j else j) = j1 at h h1
  split at h
  · simp only [Except.ok.injEq] at h
    subst h
    exact h1
  · split at h
    · split at h
      · simp at h
      · simp only [Except.ok.injEq] at h
        subst h
        exact h1
    · split at h
      · simp at h
      · split at h
        · simp only [Except.ok.injEq] at h
          subst h
          exact h1
        · split at h
          · simp only [Except.ok.injEq] at h
            subst h
            rw [OnDownloadSucceeded_coord]
            exact h1
          · simp only [Except.ok.injEq] at h
            subst h
            exact h1

theorem CancelRequest_coord (j j1 : FCachedElevationFile) (h : j.CancelRequest = Except.ok j1) :
    j1.Coord = j.Coord := by
  unfold FCachedElevationFile.CancelRequest at h
  split at h
  · simp at h
  · simp only [Except.ok.injEq] at h
    subst h
    rfl

theorem map_coord_set (H : List FCachedElevationFile) (p : Nat) (j j1 : FCachedElevationFile)
    (hj : H[p]? = some j) (hc : j1.Coord = j.Coord) :
    (H.set p j1).map FCachedElevationFile.Coord = H.map FCachedElevationFile.Coord := by
  apply List.ext_getElem?
  intro q
  by_cases hq : p = q
  · subst hq
    have hp : p < H.length := (List.getElem?_eq_some_iff.1 hj).1
    simp only [List.map_set, List.getElem?_map, hj, hc, Option.map_some']
    rw [List.getElem?_set_self (by simpa using hp)]
  · simp [List.getElem?_map, List.getElem?_set_ne hq]

theorem cancelLoop_coord : ∀ (ptrs : List Nat) (H H1 : List FCachedElevationFile),
    cancelLoop ptrs H = Except.ok H1 →
    H1.map FCachedElevationFile.Coord = H.map FCachedElevationFile.Coord := by
  intro ptrs
  induction ptrs with
  | nil =>
    intro H H1 h
    simp [cancelLoop] at h
    subst h
    rfl
  | cons p rest ih =>
    intro H H1 h
    simp only [cancelLoop] at h
    split at h
    · simp at h
    · rename_i j hj
      split at h
      · simp at h
      · rename_i j1 hj1
        rw [ih _ _ h, map_coord_set H p j j1 hj (CancelRequest_coord _ _ hj1)]

theorem pollPass_coord (env : Nat → Env) : ∀ (l : List Nat) (s s1 : LoaderState),
    pollPass env l s = Except.ok s1 →
    s1.Heap.map FCachedElevationFile.Coord = s.Heap.map FCachedElevationFile.Coord := by
  intro l
  induction l with
  | nil =>
    intro s s1 h
    simp [pollPass] at h
    subst h
    rfl
  | cons p rest ih =>
    intro s s1 h
    simp only [pollPass] at h
    split at h
    · simp at h
    · rename_i j hj
      split at h
      · simp at h
      · rename_i r hr
        have hset := map_coord_set s.Heap p j r.1 hj (Tick_coord _ _ _ hr)
        split at h
        · split at h
          · simp only [Except.ok.injEq] at h
            subst h
            exact hset
          · split at h
            · simp at h
            · rename_i H2 hH2
              simp only [Except.ok.injEq] at h
              subst h
              simp only
              rw [cancelLoop_coord _ _ _ hH2, hset]
        · rw [ih _ _ h]
          exact hset

theorem downloadLoop_coord (UserCancel : Nat → Bool) (env : Nat → Nat → Env) :
    ∀ (fuel i : Nat) (s s1 : LoaderState),
    downloadLoop UserCancel env fuel i s = Except.ok s1 →
    s1.Heap.map FCachedElevationFile.Coord = s.Heap.map FCachedElevationFile.Coord := by
  intro fuel
  induction fuel with
  | zero =>
    intro i s s1 h
    simp only [downloadLoop] at h
    split at h
    · simp only [Except.ok.injEq] at h
      rw [h]
    · simp at h
  | succ fuel ih =>
    intro i s s1 h
    simp only [downloadLoop] at h
    split at h
    · simp only [Except.ok.injEq] at h
      rw [h]
    · split at h
      · simp only [Except.ok.injEq] at h
        rw [h]
      · split at h
        · simp at h
        · rename_i s2 hs2
          rw [ih _ _ _ h, pollPass_coord _ _ _ _ hs2]

/-! ## C1: the result of `LoadElevationData` -/

/-- C1. On a newly constructed model whose bounds are accepted, a call of
`LoadElevationData` that returns (no fault, the loop ends within the fuel) returns `true`
if and only if every planned job is in `FilesDownloaded` and `Succeeded()`; the heap then
holds the planned tiles, and `BuildLandscape` calls `ReprojectData` exactly when the result
is `true`. -/
theorem LoadElevationData_true_iff_all_succeeded (geo : GeoEnv) (CtorTime : Nat → Int)
    (UserCancel : Nat → Bool) (env : Nat → Nat → Env) (fuel : Nat) (RadiusInMeters : Int)
    (c : Nat × FIntPoint × FIntPoint) (b : Bool) (s : LoaderState)
    (hBounds : TileCorners geo RadiusInMeters = some c)
    (hRun : FElevationModel.create.LoadElevationData geo CtorTime UserCancel env fuel
      RadiusInMeters = Except.ok (b, s)) :
    (b = true ↔ ∀ p, p < (PlanTiles CtorTime c.2.1 c.2.2 c.1).length →
        p ∈ s.FilesDownloaded ∧ ∃ j, s.Heap[p]? = some j ∧ j.Succeeded = true)
    ∧ s.Heap.map FCachedElevationFile.Coord
        = (PlanTiles CtorTime c.2.1 c.2.2 c.1).map FCachedElevationFile.Coord
    ∧ (BuildLandscape geo CtorTime UserCancel env fuel RadiusInMeters).ReprojectDataCalled
        = b := by
  have hB : (BuildLandscape geo CtorTime UserCancel env fuel RadiusInMeters).ReprojectDataCalled
      = b := by
    unfold BuildLandscape
    rw [hRun]
    cases b
    · rfl
    · simp only [Bool.not_true, Bool.false_eq_true, if_false]
      split <;> rfl
  refine ⟨?_, ?_, hB⟩
  all_goals
    unfold FElevationModel.LoadElevationData at hRun
    rw [hBounds] at hRun
    dsimp only at hRun
    unfold downloadAndCheck at hRun
    split at hRun
    · simp at hRun
  · rename_i s1 hs1
    have hinv := downloadLoop_inv _ UserCancel env fuel 0 _ s1
      (LoaderInv.fresh _ (PlanTiles_fresh CtorTime c.2.1 c.2.2 c.1)) hs1
    have hiff := hinv.all_downloaded_iff
    split at hRun
    · rename_i hlt
      simp only [Except.ok.injEq, Prod.mk.injEq] at hRun
      obtain ⟨rfl, rfl⟩ := hRun
      constructor
      · intro h
        simp at h
      · intro h
        exact absurd hlt (hiff.2 h)
    · rename_i hlt
      simp only [Except.ok.injEq, Prod.mk.injEq] at hRun
      obtain ⟨rfl, rfl⟩ := hRun
      exact ⟨fun _ => hiff.1 hlt, fun _ => rfl⟩
  · rename_i s1 hs1
    have hc := downloadLoop_coord UserCancel env fuel 0 _ s1 hs1
    have hs : s = s1 := by
      split at hRun <;> simp only [Except.ok.injEq, Prod.mk.injEq] at hRun <;> exact hRun.2.symm
    rw [hs, hc]
    simp [FElevationModel.afterPlanning, FElevationModel.create]

/-- C1, at a two-tile request whose tiles are both found in the cache: the call returns
`true`, the heap holds the two planned tiles, and `BuildLandscape` calls `ReprojectData`. -/
theorem LoadElevationData_true_iff_all_succeeded_witness :
    [cachedJob 0, cachedJob 1].map FCachedElevationFile.Coord
        = (PlanTiles (fun _ => 0) { X := 0, Y := 0 } { X := 1, Y := 0 } 15).map
            FCachedElevationFile.Coord
    ∧ (BuildLandscape sampleGeo (fun _ => 0) (fun _ => false) (fun _ _ => cachedEnv) 2
        100).ReprojectDataCalled = true :=
  (LoadElevationData_true_iff_all_succeeded sampleGeo (fun _ => 0) (fun _ => false)
    (fun _ _ => cachedEnv) 2 100 (15, { X := 0, Y := 0 }, { X := 1, Y := 0 }) true
    { Heap := [cachedJob 0, cachedJob 1], FilesToDownload := [], FilesDownloaded := [0, 1] }
    rfl rfl).2

/-! ## binary32 exactness and C3 -/

theorem unpackLoop_length : ∀ (n : Nat) (Data : Bytes), (unpackLoop n Data).length = n := by
  intro n
  induction n with
  | zero => intro Data; rfl
  | succ n ih => intro Data; simp [unpackLoop, ih]

/-- C2, failing input: two planned tiles, no cache entry, `ProcessRequest` fails for the
first job on its first poll. The cancel loop then reaches the second job, which was never
polled and has no request handle, and the run ends in a null dereference instead of
cancelling and emptying the pending set. -/
theorem LoadElevationData_faults_cancelling_unpolled_job :
    FElevationModel.create.LoadElevationData sampleGeo (fun _ => 0) (fun _ => false)
      (fun _ _ => failEnv) 1 100 = Except.error Fault.nullHandle := rfl

/-! ## C7 -/

/-- C7 (amended). The height encoding maps 0 to 32768 and -32768 to 0; it is the sum
`32768 + e` reduced modulo `2^16`, which is `32768 + e` itself for `e` in
`[-32768, 32767]`. -/
theorem EncodeElevation_wraps :
    EncodeElevation 0 = 32768 ∧ EncodeElevation (-32768) = 0 ∧
    (∀ e : Int, (EncodeElevation e : Int) = (32768 + e) % 65536) ∧
    (∀ e : Int, -32768 ≤ e → e ≤ 32767 → (EncodeElevation e : Int) = 32768 + e) := by
  refine ⟨by decide, by decide, ?_, ?_⟩
  · intro e
    unfold EncodeElevation toUInt16 ZeroElevationOffset
    omega
  · intro e h1 h2
    unfold EncodeElevation toUInt16 ZeroElevationOffset
    omega

/-- C7 (amended) at `e = 100`. -/
theorem EncodeElevation_wraps_witness :
    ((EncodeElevation 100 : Nat) : Int) = 32768 + 100 :=
  EncodeElevation_wraps.2.2.2 100 (by decide) (by decide)

/-- C7, counterexample: outside `[-32768, 32767]` the value wraps. `e = 32768` gives 0,
not 65535, and `e = -32769` gives 65535, not 0. -/
theorem EncodeElevation_not_clamped :
    EncodeElevation 32768 = 0 ∧ EncodeElevation 32768 ≠ 65535 ∧
    EncodeElevation (-32769) = 65535 ∧ EncodeElevation (-32769) ≠ 0 := by
  decide

/-! ## C10 -/

theorem flatMap_replicate {α : Type} (v : α) (b : Nat) : ∀ a : Nat,
    (List.range a).flatMap (fun _ => List.replicate b v) = List.replicate (a * b) v := by
  intro a
  induction a with
  | zero => simp
  | succ a ih =>
    rw [List.range_succ, List.flatMap_append, ih, Nat.succ_mul, List.replicate_add]
    simp only [List.flatMap_cons, List.flatMap_nil, List.append_nil]

theorem flatMap_map_const {α : Type} (f : Nat → Nat → α) (v : α) (hf : ∀ y x, f y x = v)
    (a b : Nat) :
    (List.range a).flatMap (fun y => (List.range b).map (fun x => f y x))
      = List.replicate (a * b) v := by
  have hin : (fun y : Nat => (List.range b).map (fun x => f y x))
      = fun _ => List.replicate b v := by
    funext y
    rw [List.eq_replicate_iff]
    refine ⟨by simp, ?_⟩
    intro c hc
    simp only [List.mem_map] at hc
    obtain ⟨x, _, rfl⟩ := hc
    exact hf y x
  rw [hin, flatMap_replicate]

/-- C10 (amended). For a radius `r >= 0` whose raster size `(2r)*(2r)` fits `int32`,
`ReprojectData` writes exactly `(2r)*(2r)` cells, each 32768, whatever the origin, the
projection and the downloaded tiles. -/
theorem ReprojectData_zero (m : FElevationModel) (geo : GeoEnv) (r : Int) (h0 : 0 ≤ r)
    (hfit : (2 * r) * (2 * r) ≤ 2147483647) :
    m.ReprojectData geo r
      = Except.ok (List.replicate ((2 * r) * (2 * r)).toNat (some 32768)) := by
  have h1 : IsInt32 (r * 2) := by
    unfold IsInt32
    constructor <;> nlinarith
  have h2 : IsInt32 (r * 2 * (r * 2)) := by
    unfold IsInt32
    constructor <;> nlinarith
  obtain ⟨k, rfl⟩ : ∃ k : Nat, r = (k : Int) := ⟨r.toNat, by omega⟩
  have hk : ((k : Int) * 2).toNat = k * 2 := by omega
  have hkk : ((k : Int) * 2 * ((k : Int) * 2)).toNat = k * 2 * (k * 2) := by
    have : ((k : Int) * 2 * ((k : Int) * 2)) = ((k * 2 * (k * 2) : Nat) : Int) := by push_cast; ring
    rw [this]; rfl
  have hkk2 : (2 * (k : Int) * (2 * (k : Int))).toNat = k * 2 * (k * 2) := by
    rw [← hkk]; congr 1; ring
  unfold FElevationModel.ReprojectData
  simp only [h1, h2, not_true_eq_false, if_false, hk, hkk, hkk2]
  simp only [ite_self]
  rw [flatMap_map_const (fun _ _ => EncodeElevation 0) 32768 (fun _ _ => rfl)]
  simp

/-- C10 (amended) at radius 2: sixteen cells. -/
theorem ReprojectData_zero_witness :
    FElevationModel.create.ReprojectData sampleGeo 2
      = Except.ok (List.replicate ((2 * 2) * (2 * 2) : Int).toNat (some 32768)) :=
  ReprojectData_zero FElevationModel.create sampleGeo 2 (by decide) (by decide)

/-- C10, counterexample: for `r = 32768` the size `(2r)*(2r) = 2^32` does not fit `int32`
and no raster of `2^32` cells is produced. -/
theorem ReprojectData_overflow :
    FElevationModel.create.ReprojectData sampleGeo 32768 = Except.error Fault.int32Overflow := by
  rfl

/-! ## C4: rejected payloads -/

theorem Tick_of_failed (env : Env) (j : FCachedElevationFile) (hI : j.WasInitialized = true)
    (hF : j.Failed = true) : j.Tick env = Except.ok (j, env.Cache) := by
  unfold FCachedElevationFile.Tick
  simp [hI, hF]

theorem TickMany_of_failed (j : FCachedElevationFile) (hI : j.WasInitialized = true)
    (hF : j.Failed = true) : ∀ envs : List Env, TickMany envs j = Except.ok j := by
  intro envs
  induction envs with
  | nil => rfl
  | cons e es ih =>
    simp only [TickMany, Tick_of_failed e j hI hF]
    exact ih

theorem UnpackElevation_false_of_bad (SetCompressed : Bytes → Option ImageWrapper)
    (Elevation : List ℚ) (RawData : Bytes)
    (hBad : SetCompressed RawData = none ∨ ∃ Png, SetCompressed RawData = some Png ∧
      (Png.Width ≠ 256 ∨ Png.Height ≠ 256
        ∨ (Png.Format ≠ ERGBFormat.RGBA ∧ Png.Format ≠ ERGBFormat.BGRA) ∨ 8 < Png.BitDepth)) :
    UnpackElevation SetCompressed Elevation RawData = (false, Elevation) := by
  unfold UnpackElevation
  rcases hBad with h | ⟨Png, h, hb⟩
  · rw [h]
  · rw [h]
    dsimp only [ExpectedElevationTileSize]
    by_cases hwh : Png.Width ≠ 256 ∨ Png.Height ≠ 256
    · rw [if_pos hwh]
    · rw [if_neg hwh]
      have hf : (Png.Format ≠ ERGBFormat.RGBA ∧ Png.Format ≠ ERGBFormat.BGRA)
          ∨ Png.BitDepth > 8 := by
        rcases hb with hb | hb | hb | hb
        · exact absurd (Or.inl hb) hwh
        · exact absurd (Or.inr hb) hwh
        · exact Or.inl hb
        · exact Or.inr hb
      rw [if_pos hf]

/-- C4. A payload that the PNG wrapper does not parse, or whose width or height is not 256,
or whose format is neither `RGBA` nor `BGRA`, or whose bit depth exceeds 8, makes
`UnpackElevation` return `false` and leave `Elevation` as it was. When such a payload is the
content of the HTTP response, `OnDownloadSucceeded` sets `Failed`, leaves
`WasDownloadASuccess` untouched and writes nothing to the cache; the poll of a waiting job
that receives it ends with the job `Failed` and not `Succeeded`, and every later poll leaves
the job in that state. -/
theorem UnpackElevation_rejects (SetCompressed : Bytes → Option ImageWrapper)
    (Elevation : List ℚ) (RawData : Bytes)
    (hBad : SetCompressed RawData = none ∨ ∃ Png, SetCompressed RawData = some Png ∧
      (Png.Width ≠ 256 ∨ Png.Height ≠ 256
        ∨ (Png.Format ≠ ERGBFormat.RGBA ∧ Png.Format ≠ ERGBFormat.BGRA) ∨ 8 < Png.BitDepth)) :
    UnpackElevation SetCompressed Elevation RawData = (false, Elevation) ∧
    (∀ (env : Env) (j : FCachedElevationFile), env.SetCompressed = SetCompressed →
      env.Response = some RawData →
      (j.OnDownloadSucceeded env).1.Failed = true ∧
      (j.OnDownloadSucceeded env).1.WasDownloadASuccess = j.WasDownloadASuccess ∧
      (j.OnDownloadSucceeded env).2 = env.Cache) ∧
    (∀ (env : Env) (j : FCachedElevationFile) (h : FHttpRequest),
      env.SetCompressed = SetCompressed → env.Response = some RawData →
      env.Status = EHttpRequestStatus.Succeeded →
      j.WasInitialized = true → j.HasFinished = false → j.HttpRequest = some h →
      GetSeconds j.TimeSpan ≤ 10 →
      ∃ j1, j.Tick env = Except.ok (j1, env.Cache) ∧ j1.Failed = true ∧ j1.Succeeded = false ∧
        j1.HasFinished = true ∧ ∀ envs : List Env, TickMany envs j1 = Except.ok j1) := by
  have hU := UnpackElevation_false_of_bad SetCompressed
  refine ⟨hU Elevation RawData hBad, ?_, ?_⟩
  · intro env j hS hR
    unfold FCachedElevationFile.OnDownloadSucceeded
    rw [hR]
    simp [hS, hU j.Elevation RawData hBad]
  · intro env j h hS hR hSt hI hfin hH hT
    simp only [FCachedElevationFile.HasFinished, Bool.or_eq_false_iff] at hfin
    refine ⟨{ j with TimeSpan := env.UtcNow - j.StartTime, Failed := true }, ?_, rfl, hfin.1,
      by simp [FCachedElevationFile.HasFinished], TickMany_of_failed _ hI rfl⟩
    unfold FCachedElevationFile.Tick
    simp only [hI, hfin.1, hfin.2, hH, hSt, Bool.not_true, Bool.false_eq_true, if_false,
      Bool.or_self, not_lt.mpr hT, gt_iff_lt]
    unfold FCachedElevationFile.OnDownloadSucceeded
    simp [hR, hS, hU j.Elevation RawData hBad]

/-- C4 at a 128x128 image and at a 256x256 image in the `Gray` format: both are rejected. -/
theorem UnpackElevation_rejects_witness :
    UnpackElevation (fun _ => some smallImage) [] [] = (false, []) ∧
    UnpackElevation (fun _ => some grayImage) [] [] = (false, []) :=
  ⟨(UnpackElevation_rejects (fun _ => some smallImage) [] []
      (Or.inr ⟨smallImage, rfl, Or.inl (by decide)⟩)).1,
   (UnpackElevation_rejects (fun _ => some grayImage) [] []
      (Or.inr ⟨grayImage, rfl, Or.inr (Or.inr (Or.inl ⟨by decide, by decide⟩))⟩)).1⟩

/-! ## C5: the time-out -/

theorem GetSeconds_of_nonneg (t : Int) (h : 0 ≤ t) : GetSeconds t = (t / 10000000) % 60 := by
  unfold GetSeconds TicksPerSecond
  rw [Int.tdiv_eq_ediv h (by decide), Int.tmod_eq_emod (by omega) (by decide)]

theorem GetSeconds_of_neg (t : Int) (h : t < 0) : GetSeconds t ≤ 0 := by
  unfold GetSeconds TicksPerSecond
  obtain ⟨s, rfl⟩ : ∃ s : Int, t = -s := ⟨-t, by omega⟩
  have hs : 0 ≤ s := by omega
  have hv : 0 ≤ s / 10000000 := Int.ediv_nonneg hs (by decide)
  rw [Int.neg_tdiv, Int.tdiv_eq_ediv hs (by decide), Int.tmod_def, Int.neg_tdiv,
    Int.tdiv_eq_ediv hv (by decide)]
  omega

theorem GetSeconds_gt_ten (t : Int) (h : GetSeconds t > 10) : 11 * TicksPerSecond ≤ t := by
  by_cases ht : 0 ≤ t
  · rw [GetSeconds_of_nonneg t ht] at h
    unfold TicksPerSecond
    omega
  · have := GetSeconds_of_neg t (by omega)
    omega

theorem GetSeconds_gt_ten_of_window (t : Int) (h1 : 11 * TicksPerSecond ≤ t)
    (h2 : t < 60 * TicksPerSecond) : GetSeconds t > 10 := by
  unfold TicksPerSecond at h1 h2
  rw [GetSeconds_of_nonneg t (by omega)]
  omega

theorem Tick_fetching (env : Env) (j : FCachedElevationFile) (h : FHttpRequest)
    (hI : j.WasInitialized = true) (hfin : j.HasFinished = false) (hH : j.HttpRequest = some h)
    (hSt : env.Status = EHttpRequestStatus.NotStarted ∨ env.Status = EHttpRequestStatus.Processing) :
    j.Tick env = Except.ok
      (if GetSeconds j.TimeSpan > 10 then { j with Failed := true, HttpRequest := some h.cancel }
        else { j with TimeSpan := env.UtcNow - j.StartTime,
                      HttpRequest := some { h with TickCalls := h.TickCalls + 1 } }, env.Cache) := by
  simp only [FCachedElevationFile.HasFinished, Bool.or_eq_false_iff] at hfin
  have hS1 : ¬ (env.Status = EHttpRequestStatus.Failed
      ∨ env.Status = EHttpRequestStatus.Failed_ConnectionError) := by
    rcases hSt with h | h <;> simp [h]
  have hS2 : ¬ env.Status = EHttpRequestStatus.Succeeded := by
    rcases hSt with h | h <;> simp [h]
  unfold FCachedElevationFile.Tick
  simp only [hI, hfin.1, hfin.2, hH, Bool.not_true, Bool.false_eq_true, if_false, Bool.or_self]
  split_ifs <;> rfl

/-- C5 (amended). For a job that waits for its download (initialised, not finished, request
handle present) and whose request has not completed, a poll returns; it ends with the job
`Failed` only if the elapsed time the job had recorded (`TimeSpan`, set by its previous
poll) exceeds 10 seconds, and then the request is cancelled; it does end so whenever that
recorded time is at least 11 and below 60 seconds; a poll that does not time out records
`UtcNow - StartTime`, the time since the construction of the job, and ticks the request. -/
theorem Tick_timeout (env : Env) (j : FCachedElevationFile) (h : FHttpRequest)
    (hI : j.WasInitialized = true) (hfin : j.HasFinished = false) (hH : j.HttpRequest = some h)
    (hSt : env.Status = EHttpRequestStatus.NotStarted ∨ env.Status = EHttpRequestStatus.Processing) :
    ∃ j1, j.Tick env = Except.ok (j1, env.Cache) ∧ j1.StartTime = j.StartTime ∧
      (j1.Failed = true →
        10 * TicksPerSecond < j.TimeSpan ∧ j1.HttpRequest = some h.cancel) ∧
      (11 * TicksPerSecond ≤ j.TimeSpan → j.TimeSpan < 60 * TicksPerSecond →
        j1.Failed = true ∧ j1.HttpRequest = some h.cancel) ∧
      (j1.Failed = false →
        j1.TimeSpan = env.UtcNow - j.StartTime ∧ j1.HasFinished = false ∧
        j1.HttpRequest = some { h with TickCalls := h.TickCalls + 1 }) := by
  simp only [FCachedElevationFile.HasFinished, Bool.or_eq_false_iff] at hfin
  refine ⟨_, Tick_fetching env j h hI (by simp [FCachedElevationFile.HasFinished, hfin]) hH hSt,
    ?_, ?_, ?_, ?_⟩
  · split_ifs <;> rfl
  · intro hF
    by_cases hT : GetSeconds j.TimeSpan > 10
    · rw [if_pos hT]
      have := GetSeconds_gt_ten _ hT
      unfold TicksPerSecond at this ⊢
      exact ⟨by omega, rfl⟩
    · rw [if_neg hT] at hF
      simp [hfin.2] at hF
  · intro h1 h2
    rw [if_pos (GetSeconds_gt_ten_of_window _ h1 h2)]
    exact ⟨rfl, rfl⟩
  · intro hF
    by_cases hT : GetSeconds j.TimeSpan > 10
    · rw [if_pos hT] at hF
      simp at hF
    · rw [if_neg hT]
      simp [FCachedElevationFile.HasFinished, hfin]

/-- C5 (amended) at a job whose previous poll recorded 15 s: the poll at 15.1 s fails the job
and cancels its request. -/
theorem Tick_timeout_witness :
    ((fetchingJob 150000000).Tick (fetchEnv 151000000)).map
        (fun r => (r.1.Failed, r.1.HttpRequest.map FHttpRequest.CancelRequestCalls))
      = Except.ok (true, some 1) := by
  obtain ⟨j1, hT, _, _, hW, _⟩ := Tick_timeout (fetchEnv 151000000) (fetchingJob 150000000)
    { Verb := "GET", URL := TileURL 0 0 15, ProcessRequestCalls := 1,
      CancelRequestCalls := 0, TickCalls := 1 } rfl rfl rfl (Or.inr rfl)
  obtain ⟨hF, hC⟩ := hW (by decide) (by decide)
  rw [hT]
  show Except.ok (j1.Failed, j1.HttpRequest.map FHttpRequest.CancelRequestCalls)
    = Except.ok (true, some 1)
  rw [hF, hC]
  rfl

/-- C5, counterexample. A job constructed at time 0 and first polled at time 0 is polled
again at 20 s with its request still in progress: more than 10 s have passed since it
started fetching, yet the poll does not fail it. A job constructed at time 0 and first
polled at 15 s is polled again at 15.1 s: only 0.1 s have passed since it started fetching,
yet the poll fails it and cancels the request. -/
theorem Tick_timeout_counterexample :
    ((TickMany [fetchEnv 0, fetchEnv 200000000] (FCachedElevationFile.create 0 0 0 15)).map
        (fun j => (j.WasInitialized, j.HttpRequest.isSome, j.HasFinished))
      = Except.ok (true, true, false)
      ∧ 10 * TicksPerSecond < 200000000 - 0) ∧
    ((TickMany [fetchEnv 150000000, fetchEnv 151000000]
          (FCachedElevationFile.create 0 0 0 15)).map
        (fun j => (j.Failed, j.HttpRequest.map FHttpRequest.CancelRequestCalls))
      = Except.ok (true, some 1)
      ∧ ¬ (10 * TicksPerSecond < 151000000 - 150000000)) := by
  refine ⟨⟨rfl, by decide⟩, rfl, by decide⟩

/-! ## C6: tile planning -/

theorem flatMap_range_grid {α : Type} (f : Nat → Nat → α) (w : Nat) : ∀ h : Nat,
    (List.range h).flatMap (fun i => (List.range w).map (fun k => f i k))
      = (List.range (h * w)).map (fun n => f (n / w) (n % w)) := by
  intro h
  induction h with
  | zero => simp
  | succ h ih =>
    rw [List.range_succ, List.flatMap_append, ih, Nat.succ_mul, List.range_add, List.map_append,
      List.map_map]
    simp only [List.flatMap_cons, List.flatMap_nil, List.append_nil]
    congr 1
    apply List.map_congr_left
    intro k hk
    have hk1 : k < w := List.mem_range.1 hk
    have hw : 0 < w := by omega
    simp only [Function.comp]
    rw [Nat.mul_comm h w, Nat.mul_add_div hw, Nat.mul_add_mod, Nat.div_eq_of_lt hk1,
      Nat.mod_eq_of_lt hk1, Nat.add_zero]

theorem PlanCoords_eq (SW NE : FIntPoint) :
    PlanCoords SW NE
      = (List.range ((NE.Y + 1 - SW.Y).toNat * (NE.X + 1 - SW.X).toNat)).map
          (fun n => (SW.X + ((n % (NE.X + 1 - SW.X).toNat : Nat) : Int),
                     SW.Y + ((n / (NE.X + 1 - SW.X).toNat : Nat) : Int))) := by
  unfold PlanCoords int32Range
  rw [← flatMap_range_grid (fun i k => (SW.X + (k : Int), SW.Y + (i : Int)))]
  simp only [List.flatMap_map, List.map_map, Function.comp_def]

theorem PlanTiles_getElem? (CtorTime : Nat → Int) (SW NE : FIntPoint) (L n : Nat)
    (hn : n < (NE.Y + 1 - SW.Y).toNat * (NE.X + 1 - SW.X).toNat) :
    (PlanTiles CtorTime SW NE L)[n]?
      = some (FCachedElevationFile.create (CtorTime n)
          (toUInt32 (SW.X + ((n % (NE.X + 1 - SW.X).toNat : Nat) : Int)))
          (toUInt32 (SW.Y + ((n / (NE.X + 1 - SW.X).toNat : Nat) : Int))) L) := by
  unfold PlanTiles
  rw [List.getElem?_map, List.getElem?_enum, PlanCoords_eq, List.getElem?_map,
    List.getElem?_range hn]
  rfl

theorem PlanTiles_length (CtorTime : Nat → Int) (SW NE : FIntPoint) (L : Nat) :
    (PlanTiles CtorTime SW NE L).length
      = (NE.Y + 1 - SW.Y).toNat * (NE.X + 1 - SW.X).toNat := by
  unfold PlanTiles
  rw [List.length_map, List.enum_length, PlanCoords_eq, List.length_map, List.length_range]

theorem PlanTiles_coords (CtorTime : Nat → Int) (SW NE : FIntPoint) (L : Nat) :
    (PlanTiles CtorTime SW NE L).map FCachedElevationFile.Coord
      = (List.range ((NE.Y + 1 - SW.Y).toNat * (NE.X + 1 - SW.X).toNat)).map
          (fun n => (toUInt32 (SW.X + ((n % (NE.X + 1 - SW.X).toNat : Nat) : Int)),
                     toUInt32 (SW.Y + ((n / (NE.X + 1 - SW.X).toNat : Nat) : Int)), L)) := by
  apply List.ext_getElem?
  intro n
  by_cases hn : n < (NE.Y + 1 - SW.Y).toNat * (NE.X + 1 - SW.X).toNat
  · rw [List.getElem?_map, PlanTiles_getElem? CtorTime SW NE L n hn, List.getElem?_map,
      List.getElem?_range hn]
    rfl
  · rw [List.getElem?_eq_none (by simp [PlanTiles_length]; omega),
      List.getElem?_eq_none (by simp; omega)]

theorem toUInt32_add_inj (a : Int) (x y : Nat) (hx : x < 4294967296) (hy : y < 4294967296)
    (h : toUInt32 (a + (x : Int)) = toUInt32 (a + (y : Int))) : x = y := by
  unfold toUInt32 at h
  omega

/-- Step 1 on ordered corners. When the south-west corner tile does not exceed the north-east
corner tile on either axis (and the `int32` loop variables do not overflow), step 1 creates
exactly
`(xmax - xmin + 1) * (ymax - ymin + 1)` jobs for `xmin = SW.X`, `xmax = NE.X`, `ymin = SW.Y`,
`ymax = NE.Y`: the job at position `i * width + k` is the one for tile
`(xmin + k, ymin + i)` at the level index (row-major, `Y` outer, `X` inner), and no two jobs
have the same `(X, Y, Z)`. -/
theorem PlanTiles_rectangle (CtorTime : Nat → Int) (SW NE : FIntPoint) (L : Nat)
    (hX : SW.X ≤ NE.X) (hY : SW.Y ≤ NE.Y)
    (hSW : IsInt32 SW.X ∧ IsInt32 SW.Y) (hNE : IsInt32 (NE.X + 1) ∧ IsInt32 (NE.Y + 1)) :
    ((PlanTiles CtorTime SW NE L).length : Int) = (NE.X - SW.X + 1) * (NE.Y - SW.Y + 1) ∧
    (∀ i k : Nat, (i : Int) ≤ NE.Y - SW.Y → (k : Int) ≤ NE.X - SW.X →
      (PlanTiles CtorTime SW NE L)[i * (NE.X - SW.X + 1).toNat + k]?
        = some (FCachedElevationFile.create (CtorTime (i * (NE.X - SW.X + 1).toNat + k))
            (toUInt32 (SW.X + (k : Int))) (toUInt32 (SW.Y + (i : Int))) L)) ∧
    ((PlanTiles CtorTime SW NE L).map FCachedElevationFile.Coord).Nodup := by
  obtain ⟨w, hw⟩ : ∃ w : Nat, NE.X + 1 - SW.X = (w : Int) := ⟨(NE.X + 1 - SW.X).toNat, by omega⟩
  obtain ⟨h, hh⟩ : ∃ h : Nat, NE.Y + 1 - SW.Y = (h : Int) := ⟨(NE.Y + 1 - SW.Y).toNat, by omega⟩
  have hw1 : (NE.X + 1 - SW.X).toNat = w := by omega
  have hh1 : (NE.Y + 1 - SW.Y).toNat = h := by omega
  have hw2 : (NE.X - SW.X + 1).toNat = w := by omega
  have hwlt : w < 4294967296 := by
    unfold IsInt32 at hSW hNE
    omega
  have hhlt : h < 4294967296 := by
    unfold IsInt32 at hSW hNE
    omega
  refine ⟨?_, ?_, ?_⟩
  · rw [PlanTiles_length, hw1, hh1]
    have e1 : NE.X - SW.X + 1 = (w : Int) := by omega
    have e2 : NE.Y - SW.Y + 1 = (h : Int) := by omega
    rw [e1, e2]
    push_cast
    ring
  · intro i k hi hk
    have hk1 : k < w := by omega
    have hi1 : i < h := by omega
    have hn : i * w + k < h * w := by
      calc i * w + k < i * w + w := by omega
        _ = (i + 1) * w := by ring
        _ ≤ h * w := Nat.mul_le_mul_right w (by omega)
    rw [hw2, PlanTiles_getElem? CtorTime SW NE L (i * w + k) (by rw [hw1, hh1]; exact hn), hw1]
    have hw0 : 0 < w := by omega
    have hd : (i * w + k) / w = i := by
      rw [Nat.mul_comm, Nat.mul_add_div hw0, Nat.div_eq_of_lt hk1, Nat.add_zero]
    have hm : (i * w + k) % w = k := by
      rw [Nat.mul_comm, Nat.mul_add_mod, Nat.mod_eq_of_lt hk1]
    rw [hd, hm]
  · rw [PlanTiles_coords, hw1, hh1]
    apply List.Nodup.map_on _ (List.nodup_range _)
    intro a ha b hb hab
    rw [List.mem_range] at ha hb
    simp only [Prod.mk.injEq, and_true] at hab
    by_cases hw0 : w = 0
    · subst hw0
      omega
    · have hw0 : 0 < w := by omega
      have hm := toUInt32_add_inj SW.X (a % w) (b % w)
        (lt_trans (Nat.mod_lt _ hw0) hwlt) (lt_trans (Nat.mod_lt _ hw0) hwlt) hab.1
      have had : a / w < h := Nat.div_lt_of_lt_mul (by rw [Nat.mul_comm]; exact ha)
      have hbd : b / w < h := Nat.div_lt_of_lt_mul (by rw [Nat.mul_comm]; exact hb)
      have hd := toUInt32_add_inj SW.Y (a / w) (b / w) (by omega) (by omega) hab.2
      rw [← Nat.div_add_mod a w, ← Nat.div_add_mod b w, hm, hd]

/-- Step 1 at the ordered corners `(0, 0)` and `(1, 0)`: two jobs. -/
theorem PlanTiles_rectangle_witness :
    ((PlanTiles (fun _ => 0) { X := 0, Y := 0 } { X := 1, Y := 0 } 15).length : Int)
      = (1 - 0 + 1) * (0 - 0 + 1) :=
  (PlanTiles_rectangle (fun _ => 0) { X := 0, Y := 0 } { X := 1, Y := 0 } 15
    (by decide) (by decide) ⟨by decide, by decide⟩ ⟨by decide, by decide⟩).1

/-- C6, failing input. For the corner tiles `SW = (0, 5)` and `NE = (3, 2)` (tile rows
counted from the north, so the south-west tile has the larger `Y`) the two tiles span the
index ranges `0..3` and `2..5`, sixteen tiles; the loop `Y = SW.Y; Y <= NE.Y` never runs and
step 1 creates no job. The count is neither `(xmax-xmin+1)*(ymax-ymin+1)` for the spanned
ranges nor that product for `xmin = SW.X`, `xmax = NE.X`, `ymin = SW.Y`, `ymax = NE.Y`. -/
theorem PlanTiles_inverted_corners :
    (PlanTiles (fun _ => 0) { X := 0, Y := 5 } { X := 3, Y := 2 } 15).length = 0 ∧
    ((PlanTiles (fun _ => 0) { X := 0, Y := 5 } { X := 3, Y := 2 } 15).length : Int)
      ≠ (max (0 : Int) 3 - min 0 3 + 1) * (max (5 : Int) 2 - min 5 2 + 1) ∧
    ((PlanTiles (fun _ => 0) { X := 0, Y := 5 } { X := 3, Y := 2 } 15).length : Int)
      ≠ ((3 : Int) - 0 + 1) * ((2 : Int) - 5 + 1) := by
  decide

/-- The run behind the failing input of step 1: with a tiling whose rows are counted from
the north, a request whose corners fall into the tiles `(0, 5)` and `(3, 2)` plans no job,
skips the download loop, and `LoadElevationData` returns `true` with nothing downloaded;
`BuildLandscape` goes on to `ReprojectData`. -/
theorem LoadElevationData_inverted_corners :
    TileCorners northDownGeo 100 = some (15, { X := 0, Y := 5 }, { X := 3, Y := 2 }) ∧
    FElevationModel.create.LoadElevationData northDownGeo (fun _ => 0) (fun _ => false)
        (fun _ _ => fetchEnv 0) 0 100
      = Except.ok (true, { Heap := [], FilesToDownload := [], FilesDownloaded := [] }) ∧
    (BuildLandscape northDownGeo (fun _ => 0) (fun _ => false) (fun _ _ => fetchEnv 0) 0
        100).ReprojectDataCalled = true :=
  ⟨rfl, rfl, rfl⟩

/-! ## C8: user cancellation -/

theorem LoaderInv.downloaded_lt {n : Nat} {s : LoaderState} (hinv : LoaderInv n s)
    (hpend : s.FilesToDownload ≠ []) : s.FilesDownloaded.length < n := by
  by_contra hge
  obtain ⟨p, hp⟩ := List.exists_mem_of_ne_nil _ hpend
  obtain ⟨j, hj, _⟩ := hinv.2.2.2 p hp
  have hlt : p < n := by
    have := (List.getElem?_eq_some_iff.1 hj).1
    rw [hinv.1] at this
    exact this
  exact (hinv.2.2.1 p ((hinv.all_downloaded_iff.1 hge) p hlt).1).1 hp

/-- C8 (amended). In every batch state of a run on a new model (the loop invariant over
`n = NumFilesToDownload` jobs holds) with jobs still pending, a user-cancel signal observed
at the start of an iteration ends the loop at once: `LoadElevationData` returns `false`,
the state is unchanged (no job is polled or cancelled, nothing is added to
`FilesDownloaded`), and every pending job is still unfinished. -/
theorem downloadAndCheck_user_cancel (UserCancel : Nat → Bool) (env : Nat → Nat → Env)
    (fuel i n : Nat) (s : LoaderState) (hinv : LoaderInv n s)
    (hpend : s.FilesToDownload ≠ []) (hc : UserCancel i = true) :
    downloadAndCheck UserCancel env (fuel + 1) i n s = Except.ok (false, s) ∧
    ∀ p ∈ s.FilesToDownload, ∃ j, s.Heap[p]? = some j ∧ j.HasFinished = false := by
  refine ⟨?_, hinv.2.2.2⟩
  unfold downloadAndCheck
  simp only [downloadLoop, hpend, hc, if_false, if_true]
  rw [if_pos (hinv.downloaded_lt hpend)]

/-- C8 (amended) at the start of a two-tile batch. -/
theorem downloadAndCheck_user_cancel_witness :
    downloadAndCheck (fun _ => true) (fun _ _ => cachedEnv) 1 0 2 twoTileStart
      = Except.ok (false, twoTileStart) :=
  (downloadAndCheck_user_cancel (fun _ => true) (fun _ _ => cachedEnv) 0 0 2 twoTileStart
    (LoaderInv.fresh _ (PlanTiles_fresh (fun _ => 0) { X := 0, Y := 0 } { X := 1, Y := 0 } 15))
    (by decide) rfl).1

/-- C8, counterexample. Two tiles are planned and the user cancels before the first poll:
`LoadElevationData` returns `false` while both jobs are still pending and neither
`HasFinished()`. -/
theorem user_cancel_leaves_jobs_unsettled :
    (FElevationModel.create.LoadElevationData sampleGeo (fun _ => 0) (fun _ => true)
        (fun _ _ => cachedEnv) 1 100).map
      (fun r => (r.1, r.2.FilesToDownload, r.2.Heap.map FCachedElevationFile.HasFinished))
      = Except.ok (false, [0, 1], [false, false]) := rfl

/-! ## C9: the first poll -/

theorem UnpackElevation_fst_indep (S : Bytes → Option ImageWrapper) (E E1 : List ℚ) (R : Bytes) :
    (UnpackElevation S E R).1 = (UnpackElevation S E1 R).1 := by
  unfold UnpackElevation
  split
  · rfl
  · dsimp only
    split_ifs <;> first | rfl | (split <;> rfl)

theorem UnpackElevation_snd_of_false (S : Bytes → Option ImageWrapper) (E : List ℚ) (R : Bytes)
    (h : (UnpackElevation S E R).1 = false) : (UnpackElevation S E R).2 = E := by
  unfold UnpackElevation at h ⊢
  split
  · rfl
  · rename_i Png hP
    rw [hP] at h
    dsimp only at h ⊢
    split_ifs at h ⊢ <;> first | rfl | (split at h <;> simp at h)

/-- When every pointer in `ptrs` points to a job with a request handle, the cancel loop
completes and leaves each of these jobs `Failed`, its `WasDownloadASuccess` unchanged. -/
theorem cancelLoop_of_handles : ∀ (ptrs : List Nat) (H : List FCachedElevationFile),
    (∀ q ∈ ptrs, ∃ j h, H[q]? = some j ∧ j.HttpRequest = some h) →
    ∃ H1, cancelLoop ptrs H = Except.ok H1 ∧
      ∀ q ∈ ptrs, ∃ j j1, H[q]? = some j ∧ H1[q]? = some j1 ∧ j1.Failed = true ∧
        j1.WasDownloadASuccess = j.WasDownloadASuccess := by
  intro ptrs
  induction ptrs with
  | nil =>
    intro H _
    exact ⟨H, rfl, by simp⟩
  | cons p rest ih =>
    intro H hH
    obtain ⟨j, h, hj, hh⟩ := hH p (List.mem_cons_self _ _)
    have hplt : p < H.length := (List.getElem?_eq_some_iff.1 hj).1
    have hC : j.CancelRequest
        = Except.ok { j with Failed := true, HttpRequest := some h.cancel } := by
      unfold FCachedElevationFile.CancelRequest
      rw [hh]
    have hrest : ∀ q ∈ rest, ∃ j2 h2,
        (H.set p { j with Failed := true, HttpRequest := some h.cancel })[q]? = some j2
          ∧ j2.HttpRequest = some h2 := by
      intro q hq
      by_cases hqp : p = q
      · subst hqp
        exact ⟨_, _, List.getElem?_set_self hplt, rfl⟩
      · obtain ⟨j2, h2, hj2, hh2⟩ := hH q (List.mem_cons_of_mem _ hq)
        exact ⟨j2, h2, by rw [List.getElem?_set_ne hqp]; exact hj2, hh2⟩
    obtain ⟨H1, hH1, hall⟩ := ih _ hrest
    refine ⟨H1, by simp only [cancelLoop, hj, hC]; exact hH1, ?_⟩
    intro q hq
    by_cases hqr : q ∈ rest
    · obtain ⟨j2, j3, hj2, hj3, hF, hW⟩ := hall q hqr
      by_cases hqp : p = q
      · subst hqp
        rw [List.getElem?_set_self hplt] at hj2
        cases hj2
        exact ⟨j, j3, hj, hj3, hF, hW⟩
      · rw [List.getElem?_set_ne hqp] at hj2
        exact ⟨j2, j3, hj2, hj3, hF, hW⟩
    · have hqp : q = p := by
        rcases List.mem_cons.1 hq with h1 | h1
        · exact h1
        · exact absurd h1 hqr
      subst hqp
      refine ⟨j, { j with Failed := true, HttpRequest := some h.cancel }, hj, ?_, rfl, rfl⟩
      rw [(cancelLoop_spec _ _ _ hH1).2 q hqr, List.getElem?_set_self hplt]

/-- A run on a new model that returns with jobs still pending (which only the user-cancel
`break` allows) returns `false`, and the pending jobs are unfinished. -/
theorem LoadElevationData_pending_at_return (geo : GeoEnv) (CtorTime : Nat → Int)
    (UserCancel : Nat → Bool) (env : Nat → Nat → Env) (fuel : Nat) (RadiusInMeters : Int)
    (b : Bool) (s : LoaderState)
    (hRun : FElevationModel.create.LoadElevationData geo CtorTime UserCancel env fuel
      RadiusInMeters = Except.ok (b, s))
    (hpend : s.FilesToDownload ≠ []) :
    b = false ∧ ∀ p ∈ s.FilesToDownload, ∃ j, s.Heap[p]? = some j ∧ j.HasFinished = false := by
  unfold FElevationModel.LoadElevationData at hRun
  split at hRun
  · simp only [Except.ok.injEq, Prod.mk.injEq] at hRun
    obtain ⟨_, rfl⟩ := hRun
    exact absurd rfl hpend
  · rename_i c hc
    dsimp only at hRun
    unfold downloadAndCheck at hRun
    split at hRun
    · simp at hRun
    · rename_i s1 hs1
      have hinv := downloadLoop_inv _ UserCancel env fuel 0 _ s1
        (LoaderInv.fresh _ (PlanTiles_fresh CtorTime c.2.1 c.2.2 c.1)) hs1
      split at hRun
      · simp only [Except.ok.injEq, Prod.mk.injEq] at hRun
        obtain ⟨rfl, rfl⟩ := hRun
        exact ⟨rfl, hinv.2.2.2⟩
      · rename_i hlt
        simp only [Except.ok.injEq, Prod.mk.injEq] at hRun
        obtain ⟨rfl, rfl⟩ := hRun
        exact absurd (hinv.downloaded_lt hpend) hlt

/-- The failure path of the download loop when every other pending job already has a
request handle: the pass cancels them all (`Failed`, success flag unchanged), empties the
pending set, adds nothing to `FilesDownloaded`, and the `while` loop then ends without
another poll. -/
theorem pollPass_failure_cancels_polled_jobs (env : Nat → Env) (p : Nat) (rest : List Nat)
    (s : LoaderState) (j : FCachedElevationFile) (r : FCachedElevationFile × Files)
    (hj : s.Heap[p]? = some j) (hT : j.Tick (env p) = Except.ok r)
    (hfin : r.1.HasFinished = true) (hsuc : r.1.Succeeded = false)
    (hH : ∀ q ∈ s.FilesToDownload, q ≠ p →
      ∃ j2 h2, s.Heap[q]? = some j2 ∧ j2.HttpRequest = some h2) :
    ∃ s1, pollPass env (p :: rest) s = Except.ok s1 ∧ s1.FilesToDownload = [] ∧
      s1.FilesDownloaded = s.FilesDownloaded ∧
      (∀ (UserCancel : Nat → Bool) (envs : Nat → Nat → Env) (fuel i : Nat),
        downloadLoop UserCancel envs fuel i s1 = Except.ok s1) ∧
      ∀ q ∈ s.FilesToDownload, q ≠ p → ∃ j2 j3, s.Heap[q]? = some j2 ∧ s1.Heap[q]? = some j3 ∧
        j3.Failed = true ∧ j3.WasDownloadASuccess = j2.WasDownloadASuccess := by
  have hrem : ∀ q ∈ s.FilesToDownload.filter (fun q => q ≠ p), ∃ j2 h2,
      (s.Heap.set p r.1)[q]? = some j2 ∧ j2.HttpRequest = some h2 := by
    intro q hq
    simp only [List.mem_filter, decide_eq_true_eq] at hq
    obtain ⟨j2, h2, hj2, hh2⟩ := hH q hq.1 hq.2
    exact ⟨j2, h2, by rw [List.getElem?_set_ne (Ne.symm hq.2)]; exact hj2, hh2⟩
  obtain ⟨H1, hH1, hall⟩ := cancelLoop_of_handles _ _ hrem
  refine ⟨{ Heap := H1, FilesToDownload := [], FilesDownloaded := s.FilesDownloaded }, ?_, rfl,
    rfl, ?_, ?_⟩
  · simp only [pollPass, hj, hT, hfin, hsuc, if_true, Bool.false_eq_true, if_false, hH1]
  · intro UserCancel envs fuel i
    cases fuel <;> simp [downloadLoop]
  · intro q hq hqp
    obtain ⟨j2, j3, hj2, hj3, hF, hW⟩ := hall q (by
      simp only [List.mem_filter, decide_eq_true_eq]
      exact ⟨hq, hqp⟩)
    rw [List.getElem?_set_ne (Ne.symm hqp)] at hj2
    exact ⟨j2, j3, hj2, hj3, hF, hW⟩

/-! ## C11: cache paths and URLs identify tiles -/

theorem digitChar_toNat (k : Nat) (hk : k < 10) : (Nat.digitChar k).toNat - 48 = k := by
  interval_cases k <;> rfl

theorem digitChar_isDigit (k : Nat) (hk : k < 10) : (Nat.digitChar k).isDigit = true := by
  interval_cases k <;> rfl

theorem toDigitsCore_length_ge (fuel : Nat) : ∀ (n : Nat) (ds : List Char),
    ds.length ≤ (Nat.toDigitsCore 10 fuel n ds).length := by
  induction fuel with
  | zero => intro n ds; simp [Nat.toDigitsCore]
  | succ fuel ih =>
    intro n ds
    simp only [Nat.toDigitsCore]
    split
    · simp
    · exact le_trans (by simp) (ih _ _)

theorem decodeDigits_toDigitsCore (fuel : Nat) : ∀ (n : Nat) (ds : List Char), n < fuel →
    decodeDigits (Nat.toDigitsCore 10 fuel n ds) = n * 10 ^ ds.length + decodeDigits ds ∧
    (Nat.toDigitsCore 10 fuel n ds).length > ds.length := by
  induction fuel with
  | zero => intro n ds h; omega
  | succ fuel ih =>
    intro n ds h
    simp only [Nat.toDigitsCore]
    have hm : n % 10 < 10 := Nat.mod_lt _ (by decide)
    split
    · rename_i h0
      have hn : n < 10 := by omega
      rw [Nat.mod_eq_of_lt hn]
      simp only [decodeDigits, digitChar_toNat _ hn, List.length_cons]
      exact ⟨trivial, by omega⟩
    · rename_i h0
      obtain ⟨h1, h2⟩ := ih (n / 10) (Nat.digitChar (n % 10) :: ds) (by omega)
      refine ⟨?_, by simp only [List.length_cons] at h2; omega⟩
      rw [h1]
      simp only [decodeDigits, digitChar_toNat _ hm, List.length_cons, pow_succ]
      have := Nat.div_add_mod n 10
      calc n / 10 * (10 ^ ds.length * 10) + (n % 10 * 10 ^ ds.length + decodeDigits ds)
          = (10 * (n / 10) + n % 10) * 10 ^ ds.length + decodeDigits ds := by ring
        _ = n * 10 ^ ds.length + decodeDigits ds := by rw [this]

theorem decodeDigits_toDigits (n : Nat) : decodeDigits (Nat.toDigits 10 n) = n := by
  have := (decodeDigits_toDigitsCore (n + 1) n [] (by omega)).1
  simpa [Nat.toDigits, decodeDigits] using this

theorem toDigitsCore_isDigit (fuel : Nat) : ∀ (n : Nat) (ds : List Char),
    (∀ c ∈ ds, c.isDigit = true) → ∀ c ∈ Nat.toDigitsCore 10 fuel n ds, c.isDigit = true := by
  induction fuel with
  | zero => intro n ds h; simpa [Nat.toDigitsCore] using h
  | succ fuel ih =>
    intro n ds h
    have hm : n % 10 < 10 := Nat.mod_lt _ (by decide)
    have hd : ∀ c ∈ Nat.digitChar (n % 10) :: ds, c.isDigit = true := by
      intro c hc
      rcases List.mem_cons.1 hc with rfl | hc
      · exact digitChar_isDigit _ hm
      · exact h c hc
    simp only [Nat.toDigitsCore]
    split
    · exact hd
    · exact ih _ _ hd

theorem natRepr_isDigit (n : Nat) : ∀ c ∈ (Nat.repr n).data, c.isDigit = true := by
  simp only [Nat.repr, List.asString]
  exact toDigitsCore_isDigit _ _ _ (by simp)

theorem natRepr_injective (m n : Nat) (h : Nat.repr m = Nat.repr n) : m = n := by
  have h1 : Nat.toDigits 10 m = Nat.toDigits 10 n := by
    exact congrArg String.data h
  rw [← decodeDigits_toDigits m, ← decodeDigits_toDigits n, h1]

/-- The decimal text of an integer consists of digits and `-`. -/
theorem intText_chars (i : Int) : ∀ c ∈ (toString i).data, c.isDigit = true ∨ c = '-' := by
  intro c hc
  cases i with
  | ofNat m => exact Or.inl (natRepr_isDigit m c hc)
  | negSucc m =>
    have hc' : c ∈ ("-" ++ Nat.repr (m + 1)).data := hc
    rw [String.data_append] at hc'
    rcases List.mem_append.1 hc' with h | h
    · right
      simpa using h
    · exact Or.inl (natRepr_isDigit _ c h)

theorem intText_injective (i j : Int) (h : toString i = toString j) : i = j := by
  cases i with
  | ofNat m =>
    cases j with
    | ofNat n =>
      have h' : Nat.repr m = Nat.repr n := h
      rw [natRepr_injective m n h']
    | negSucc n =>
      exfalso
      have h' : Nat.repr m = "-" ++ Nat.repr (n + 1) := h
      have hmem : '-' ∈ (Nat.repr m).data := by
        rw [h', String.data_append]
        simp
      have := natRepr_isDigit m '-' hmem
      simp at this
  | negSucc m =>
    cases j with
    | ofNat n =>
      exfalso
      have h' : "-" ++ Nat.repr (m + 1) = Nat.repr n := h
      have hmem : '-' ∈ (Nat.repr n).data := by
        rw [← h', String.data_append]
        simp
      have := natRepr_isDigit n '-' hmem
      simp at this
    | negSucc n =>
      have h' : "-" ++ Nat.repr (m + 1) = "-" ++ Nat.repr (n + 1) := h
      have h2 : (Nat.repr (m + 1)).data = (Nat.repr (n + 1)).data := by
        have := congrArg String.data h'
        rw [String.data_append, String.data_append] at this
        exact List.append_cancel_left this
      have h3 : Nat.repr (m + 1) = Nat.repr (n + 1) := String.ext h2
      have h4 : m = n := by
        have := natRepr_injective _ _ h3
        omega
      rw [h4]

theorem append_sep_unique (sep : Char) : ∀ (l1 l2 r1 r2 : List Char), sep ∉ l1 → sep ∉ l2 →
    l1 ++ sep :: r1 = l2 ++ sep :: r2 → l1 = l2 ∧ r1 = r2 := by
  intro l1
  induction l1 with
  | nil =>
    intro l2 r1 r2 _ h2 h
    cases l2 with
    | nil => simpa using h
    | cons c l2 =>
      exfalso
      simp only [List.nil_append, List.cons_append, List.cons.injEq] at h
      exact h2 (by rw [← h.1]; exact List.mem_cons_self _ _)
  | cons c l1 ih =>
    intro l2 r1 r2 h1 h2 h
    cases l2 with
    | nil =>
      exfalso
      simp only [List.nil_append, List.cons_append, List.cons.injEq] at h
      exact h1 (by rw [h.1]; exact List.mem_cons_self _ _)
    | cons d l2 =>
      simp only [List.cons_append, List.cons.injEq] at h
      obtain ⟨e1, e2⟩ := ih l2 r1 r2 (fun hc => h1 (List.mem_cons_of_mem _ hc))
        (fun hc => h2 (List.mem_cons_of_mem _ hc)) h.2
      exact ⟨by rw [h.1, e1], e2⟩

theorem sep_not_mem_intText (sep : Char) (hd : sep.isDigit = false) (hm : sep ≠ '-') (i : Int) :
    sep ∉ (toString i).data := by
  intro hc
  rcases intText_chars i sep hc with h | h
  · rw [hd] at h
    cases h
  · exact hm h

theorem three_fields_injective (P S : String) (sep : Char) (hd : sep.isDigit = false)
    (hm : sep ≠ '-') (a b c a1 b1 c1 : Int)
    (h : P ++ toString a ++ String.singleton sep ++ toString b ++ String.singleton sep
          ++ toString c ++ S
        = P ++ toString a1 ++ String.singleton sep ++ toString b1 ++ String.singleton sep
          ++ toString c1 ++ S) :
    a = a1 ∧ b = b1 ∧ c = c1 := by
  have h1 := congrArg String.data h
  simp only [String.data_append, List.append_assoc] at h1
  have hs : (String.singleton sep).data = [sep] := rfl
  rw [hs] at h1
  have h2 := List.append_cancel_left h1
  simp only [List.singleton_append] at h2
  obtain ⟨ea, h3⟩ := append_sep_unique sep _ _ _ _ (sep_not_mem_intText sep hd hm a)
    (sep_not_mem_intText sep hd hm a1) h2
  obtain ⟨eb, h4⟩ := append_sep_unique sep _ _ _ _ (sep_not_mem_intText sep hd hm b)
    (sep_not_mem_intText sep hd hm b1) h3
  have ec := List.append_cancel_right h4
  exact ⟨intText_injective _ _ (String.ext ea), intText_injective _ _ (String.ext eb),
    intText_injective _ _ (String.ext ec)⟩

theorem toInt32_injective (u v : Nat) (hu : u < 4294967296) (hv : v < 4294967296)
    (h : toInt32 u = toInt32 v) : u = v := by
  unfold toInt32 at h
  rw [Nat.mod_eq_of_lt hu, Nat.mod_eq_of_lt hv] at h
  split_ifs at h <;> omega

/-- C11. For `uint32` coordinates, `GetCachedFilePath` (for one cache directory) returns the
same path for `(X, Y, Z)` and `(X1, Y1, Z1)` only if the coordinates are equal, and the URL
`.../Z/X/Y.png` is the same only if the coordinates are equal; the request `DownloadFile`
creates carries that URL for the coordinates of its job. -/
theorem tile_keys_injective (CacheDir : String) (X Y Z X1 Y1 Z1 : Nat)
    (hX : X < 4294967296) (hY : Y < 4294967296) (hZ : Z < 4294967296)
    (hX1 : X1 < 4294967296) (hY1 : Y1 < 4294967296) (hZ1 : Z1 < 4294967296) :
    (GetCachedFilePath CacheDir X Y Z = GetCachedFilePath CacheDir X1 Y1 Z1 →
      Z = Z1 ∧ X = X1 ∧ Y = Y1) ∧
    (TileURL X Y Z = TileURL X1 Y1 Z1 → Z = Z1 ∧ X = X1 ∧ Y = Y1) ∧
    (∀ (env : Env) (j : FCachedElevationFile),
      (j.DownloadFile env).HttpRequest.map FHttpRequest.URL = some (TileURL j.X j.Y j.Z)) := by
  refine ⟨?_, ?_, ?_⟩
  · intro h
    have h1 := three_fields_injective (CacheDir ++ "elevation_") ".png" '_' (by decide)
      (by decide) (toInt32 Z) (toInt32 X) (toInt32 Y) (toInt32 Z1) (toInt32 X1) (toInt32 Y1) h
    exact ⟨toInt32_injective _ _ hZ hZ1 h1.1, toInt32_injective _ _ hX hX1 h1.2.1,
      toInt32_injective _ _ hY hY1 h1.2.2⟩
  · intro h
    have h1 := three_fields_injective "http://s3.amazonaws.com/elevation-tiles-prod/terrarium/"
      ".png" '/' (by decide) (by decide) (toInt32 Z) (toInt32 X) (toInt32 Y) (toInt32 Z1)
      (toInt32 X1) (toInt32 Y1) h
    exact ⟨toInt32_injective _ _ hZ hZ1 h1.1, toInt32_injective _ _ hX hX1 h1.2.1,
      toInt32_injective _ _ hY hY1 h1.2.2⟩
  · intro env j
    unfold FCachedElevationFile.DownloadFile
    dsimp only
    split <;> rfl

/-- C11 at the tiles `(1, 2, 15)` and `(2, 1, 15)`: different paths, different URLs. -/
theorem tile_keys_injective_witness :
    GetCachedFilePath "" 1 2 15 ≠ GetCachedFilePath "" 2 1 15 ∧
    TileURL 1 2 15 ≠ TileURL 2 1 15 :=
  ⟨fun h => absurd ((tile_keys_injective "" 1 2 15 2 1 15 (by decide) (by decide) (by decide)
      (by decide) (by decide) (by decide)).1 h).2.1 (by decide),
   fun h => absurd ((tile_keys_injective "" 1 2 15 2 1 15 (by decide) (by decide) (by decide)
      (by decide) (by decide) (by decide)).2.1 h).2.1 (by decide)⟩

/-! ## C12: the samples of a job that succeeded -/

theorem UnpackElevation_snd_cases (S : Bytes → Option ImageWrapper) (E : List ℚ) (R : Bytes) :
    (UnpackElevation S E R).2 = E ∨ ∃ RawPNG : Bytes, (UnpackElevation S E R).2
      = unpackLoop 65536 RawPNG := by
  unfold UnpackElevation
  split
  · exact Or.inl rfl
  · rename_i Png hP
    dsimp only [ExpectedElevationTileSize]
    by_cases hwh : Png.Width ≠ 256 ∨ Png.Height ≠ 256
    · rw [if_pos hwh]
      exact Or.inl rfl
    · rw [if_neg hwh]
      simp only [ne_eq, not_or, not_not] at hwh
      split_ifs
      · exact Or.inl rfl
      · split
        · rename_i RawPNG _
          exact Or.inr ⟨RawPNG, by rw [hwh.1, hwh.2]; rfl⟩
        · exact Or.inl rfl
      · split
        · rename_i RawPNG _
          exact Or.inr ⟨RawPNG, by rw [hwh.1, hwh.2]; rfl⟩
        · exact Or.inl rfl

theorem JobInv_create (UtcNow : Int) (X Y Z : Nat) :
    JobInv (FCachedElevationFile.create UtcNow X Y Z) :=
  ⟨fun h => Bool.noConfusion h, Or.inl rfl⟩

theorem JobInv_of_unfinished_elevation (j : FCachedElevationFile) (hinv : JobInv j)
    (h : j.WasDownloadASuccess = false) : j.Elevation = [] := by
  rcases hinv.2 with h1 | ⟨h1, _⟩
  · exact h1
  · rw [h] at h1
    cases h1

theorem JobInv_DownloadFile (env : Env) (j : FCachedElevationFile)
    (hI : j.WasInitialized = true) (hE : j.Elevation = []) :
    JobInv (j.DownloadFile env) ∧ (j.DownloadFile env).WasInitialized = true := by
  unfold FCachedElevationFile.DownloadFile JobInv
  dsimp only
  split <;> simp [hI, hE]

theorem JobInv_Initialize (env : Env) (j : FCachedElevationFile) (hE : j.Elevation = []) :
    JobInv (j.Initialize env) ∧ (j.Initialize env).WasInitialized = true := by
  unfold FCachedElevationFile.Initialize
  dsimp only
  split
  · rename_i RawData _
    rw [hE]
    cases hU : (UnpackElevation env.SetCompressed [] RawData).1
    · simp only [Bool.false_eq_true, if_false]
      exact JobInv_DownloadFile env _ rfl (UnpackElevation_snd_of_false _ _ _ hU)
    · simp only [if_true]
      refine ⟨⟨fun _ => rfl, ?_⟩, by simp⟩
      rcases UnpackElevation_snd_cases env.SetCompressed [] RawData with h | ⟨raw, h⟩
      · exact Or.inl h
      · exact Or.inr ⟨rfl, raw, h⟩
  · exact JobInv_DownloadFile env _ rfl hE

theorem JobInv_OnDownloadSucceeded (env : Env) (j : FCachedElevationFile)
    (hI : j.WasInitialized = true) (hE : j.Elevation = []) :
    JobInv (j.OnDownloadSucceeded env).1 := by
  unfold FCachedElevationFile.OnDownloadSucceeded
  dsimp only
  split
  · rename_i Content _
    rw [hE]
    cases hU : (UnpackElevation env.SetCompressed [] Content).1
    · simp only [Bool.not_false, if_true]
      exact ⟨fun _ => hI, Or.inl (UnpackElevation_snd_of_false _ _ _ hU)⟩
    · simp only [Bool.not_true, Bool.false_eq_true, if_false]
      refine ⟨fun _ => hI, ?_⟩
      rcases UnpackElevation_snd_cases env.SetCompressed [] Content with h | ⟨raw, h⟩
      · exact Or.inl h
      · exact Or.inr ⟨rfl, raw, h⟩
  · exact ⟨fun _ => hI, Or.inl hE⟩

theorem JobInv_Tick (env : Env) (j : FCachedElevationFile) (r : FCachedElevationFile × Files)
    (hinv : JobInv j) (h : j.Tick env = Except.ok r) : JobInv r.1 := by
  have h1 : JobInv (if !j.WasInitialized then FCachedElevationFile.Initialize env j else j) ∧
      (if !j.WasInitialized then FCachedElevationFile.Initialize env j else j).WasInitialized
        = true := by
    cases hI : j.WasInitialized
    · simp only [Bool.not_false, if_true]
      have hS : j.WasDownloadASuccess = false := by
        cases hS : j.WasDownloadASuccess
        · rfl
        · rw [hinv.1 hS] at hI
          cases hI
      exact JobInv_Initialize env j (JobInv_of_unfinished_elevation j hinv hS)
    · simp only [Bool.not_true, Bool.false_eq_true, if_false]
      exact ⟨hinv, hI⟩
  unfold FCachedElevationFile.Tick at h
  simp only [] at h
  generalize (if !j.WasInitialized then FCachedElevationFile.Initialize env j else j) = j1 at h h1
  obtain ⟨hj1, hI1⟩ := h1
  split at h
  · simp only [Except.ok.injEq] at h
    subst h
    exact hj1
  · rename_i hfin
    simp only [Bool.or_eq_true, not_or, Bool.not_eq_true] at hfin
    have hE := JobInv_of_unfinished_elevation j1 hj1 hfin.1
    split at h
    · split at h
      · simp at h
      · simp only [Except.ok.injEq] at h
        subst h
        exact ⟨fun _ => hI1, Or.inl hE⟩
    · split at h
      · simp at h
      · split at h
        · simp only [Except.ok.injEq] at h
          subst h
          exact ⟨fun _ => hI1, Or.inl hE⟩
        · split at h
          · simp only [Except.ok.injEq] at h
            subst h
            exact JobInv_OnDownloadSucceeded env _ hI1 hE
          · simp only [Except.ok.injEq] at h
            subst h
            exact ⟨fun _ => hI1, Or.inl hE⟩

theorem JobInv_TickMany : ∀ (envs : List Env) (j j1 : FCachedElevationFile), JobInv j →
    TickMany envs j = Except.ok j1 → JobInv j1 := by
  intro envs
  induction envs with
  | nil =>
    intro j j1 hinv h
    simp only [TickMany, Except.ok.injEq] at h
    exact h ▸ hinv
  | cons e es ih =>
    intro j j1 hinv h
    simp only [TickMany] at h
    split at h
    · simp at h
    · rename_i r hr
      exact ih _ _ (JobInv_Tick e j r hinv hr) h

/-- The `Elevation` of a job reached from its constructor by polls is either empty or the
65536 samples unpacked from a raw pixel buffer, and in the second case the job
`Succeeded()`. -/
theorem reachable_succeeded_elevation (envs : List Env) (UtcNow : Int) (X Y Z : Nat)
    (j : FCachedElevationFile)
    (hReach : TickMany envs (FCachedElevationFile.create UtcNow X Y Z) = Except.ok j) :
    j.Elevation = [] ∨
      (j.Succeeded = true ∧ j.Elevation.length = 65536 ∧
        ∃ RawPNG : Bytes, j.Elevation = unpackLoop 65536 RawPNG) := by
  rcases (JobInv_TickMany envs _ j (JobInv_create UtcNow X Y Z) hReach).2 with h | ⟨hS, raw, h⟩
  · exact Or.inl h
  · exact Or.inr ⟨hS, by rw [h, unpackLoop_length], raw, h⟩

/-- C12, failing inputs. First poll with a cache file that the PNG wrapper accepts as a
256x256 RGBA image of depth 8 but whose raw data `GetRaw` does not deliver: the job
`Succeeded()` and `Elevation` is empty. First poll with a cache miss, second poll with the
request completed and an invalid response pointer: the job `Succeeded()` and `Elevation`
is empty. -/
theorem Succeeded_job_without_samples :
    (TickMany [cachedEnv] (FCachedElevationFile.create 0 0 0 15)).map
        (fun j => (j.Succeeded, j.Elevation.length)) = Except.ok (true, 0) ∧
    (TickMany [fetchEnv 0, lostResponseEnv] (FCachedElevationFile.create 0 0 0 15)).map
        (fun j => (j.Succeeded, j.Elevation.length)) = Except.ok (true, 0) :=
  ⟨rfl, rfl⟩

/-! ## C13: the handle dereference in `CancelRequest` -/

/-- C13, failing input: two planned tiles, no cache entry, `ProcessRequest` fails for the
first job on its first poll. The first job settles as failed with a request handle; the
second job has not been polled and has no handle; `CancelRequest` on such a job is a null
dereference, and the pass over the two jobs ends in it. -/
theorem CancelRequest_reaches_unpolled_job :
    ((FCachedElevationFile.create 0 0 0 15).Tick failEnv).map
        (fun r => (r.1.HasFinished, r.1.Succeeded, r.1.HttpRequest.isSome))
      = Except.ok (true, false, true) ∧
    twoTileStart.Heap.map (fun j => (j.WasInitialized, j.HttpRequest.isSome))
      = [(false, false), (false, false)] ∧
    (FCachedElevationFile.create 0 1 0 15).CancelRequest = Except.error Fault.nullHandle ∧
    pollPass (fun _ => failEnv) [0, 1] twoTileStart = Except.error Fault.nullHandle :=
  ⟨rfl, rfl, rfl, rfl⟩

end StreetMap
